import Mathlib

/-!
Verification of the bmad2vibe converter (src/main.go).

The Go program converts BMAD Method source artifacts into Mistral Vibe
artifacts (agent TOML records, prompt markdown documents, skill documents)
and validates the produced set. This file is a shallow embedding of the
program's data model and operations: Go strings are Lean `String`s (the
sources are ASCII), Go byte-level string helpers are implemented over
character lists, Go maps keyed by strings are association lists, and the
filesystem the program writes to is an explicit `Store` value threaded
through the phases. Every definition is translated from src/main.go; line
references are given in the doc comments.
-/

set_option maxRecDepth 40000

namespace Bmad2Vibe

/-! ## Character-list string helpers (Go `strings` package subset, ASCII)

The Go code uses byte-indexed operations on ASCII identifiers and file
names; over ASCII these agree with the character-level operations below.
-/

/-- Go `strings.HasPrefix` on character lists. -/
def lstStartsWith : List Char → List Char → Bool
  | _, [] => true
  | [], _ :: _ => false
  | a :: s, b :: p => a == b && lstStartsWith s p

/-- Go `strings.HasSuffix` on character lists. -/
def lstEndsWith (s p : List Char) : Bool := lstStartsWith s.reverse p.reverse

/-- Go `strings.HasPrefix`. -/
def strStartsWith (s p : String) : Bool := lstStartsWith s.data p.data

/-- Go `strings.HasSuffix`. -/
def strEndsWith (s p : String) : Bool := lstEndsWith s.data p.data

/-- Go `strings.TrimPrefix` on character lists. -/
def lstTrimPre (s p : List Char) : List Char :=
  if lstStartsWith s p then s.drop p.length else s

/-- Go `strings.TrimSuffix` on character lists. -/
def lstTrimSuf (s p : List Char) : List Char :=
  if lstEndsWith s p then s.take (s.length - p.length) else s

/-- Go `strings.TrimPrefix`. -/
def trimPre (s p : String) : String := ⟨lstTrimPre s.data p.data⟩

/-- Go `strings.TrimSuffix`. -/
def trimSuf (s p : String) : String := ⟨lstTrimSuf s.data p.data⟩

/-- Go `strings.Contains` on character lists (substring occurrence). -/
def lstContains : List Char → List Char → Bool
  | [], p => lstStartsWith [] p
  | a :: t, p => lstStartsWith (a :: t) p || lstContains t p

/-- Go `strings.Contains`. -/
def strContains (s p : String) : Bool := lstContains s.data p.data

/-- Go `strings.ToLower` (ASCII). -/
def lowerStr (s : String) : String := ⟨s.data.map Char.toLower⟩

/-- Go `strings.ToUpper` (ASCII). -/
def upperStr (s : String) : String := ⟨s.data.map Char.toUpper⟩

/-- Split a character list on a separator character; mirrors Go
`strings.Split` with a one-character separator. Always returns a
non-empty list of (possibly empty) segments. -/
def splitCh (c : Char) : List Char → List (List Char)
  | [] => [[]]
  | a :: t =>
    if a == c then [] :: splitCh c t
    else
      match splitCh c t with
      | [] => [[a]]
      | s :: r => (a :: s) :: r

/-- Uppercase the first character of a word; mirrors the
`strings.ToUpper(w[:1]) + w[1:]` step of `toTitle` (main.go:872-880). -/
def capWord : List Char → List Char
  | [] => []
  | c :: t => Char.toUpper c :: t

/-- Go `toTitle` (main.go:872-880): replace dashes by spaces, split into
words, capitalize each word, re-join with spaces. -/
def toTitle (s : String) : String :=
  let words := splitCh ' ' (s.data.map fun c => if c == '-' then ' ' else c)
  ⟨List.intercalate [' '] (words.map capWord)⟩

/-- Association-list lookup modelling Go map indexing / `m[k]` with the
`ok` flag (`none` = key absent). -/
def lookupS {α : Type} (k : String) : List (String × α) → Option α
  | [] => none
  | (k', v) :: t => if k = k' then some v else lookupS k t

/-- Go `unicode.IsSpace` on the characters that occur here (ASCII
whitespace plus NEL and NBSP). -/
def isGoSpace (c : Char) : Bool :=
  c == ' ' || c == '\t' || c == '\n' || c == '\x0b' || c == '\x0c' ||
    c == '\r' || c == '\x85' || c == '\xa0'

/-- Go `strings.TrimSpace`. -/
def trimSpace (s : String) : String :=
  ⟨((s.data.dropWhile isGoSpace).reverse.dropWhile isGoSpace).reverse⟩

def hexDigitCh (n : Nat) : Char :=
  if n < 10 then Char.ofNat (48 + n) else Char.ofNat (87 + n)

/-- One character of Go `strconv.Quote` (the `%q` verb): escape the
quote, backslash and control characters, keep printable characters
literal (Go also keeps printable non-ASCII runes literal). -/
def goQuoteChar (c : Char) : List Char :=
  if c == '"' then ['\\', '"']
  else if c == '\\' then ['\\', '\\']
  else if c == '\x07' then ['\\', 'a']
  else if c == '\x08' then ['\\', 'b']
  else if c == '\t' then ['\\', 't']
  else if c == '\n' then ['\\', 'n']
  else if c == '\x0b' then ['\\', 'v']
  else if c == '\x0c' then ['\\', 'f']
  else if c == '\r' then ['\\', 'r']
  else if 32 ≤ c.toNat ∧ c.toNat ≤ 126 then [c]
  else if 128 ≤ c.toNat then [c]
  else ['\\', 'x', hexDigitCh (c.toNat / 16), hexDigitCh (c.toNat % 16)]

/-- Go `fmt.Sprintf("%q", s)` (strconv.Quote). -/
def goQuote (s : String) : String :=
  ⟨'"' :: s.data.flatMap goQuoteChar ++ ['"']⟩

/-- `joinQuoted` (main.go:976-982): quote each element with `%q` and
join with `", "`. -/
def joinQuoted (ss : List String) : String :=
  ⟨List.intercalate (", ".data) (ss.map fun s => (goQuote s).data)⟩

/-- The byte length `os.Stat` reports for a persisted text file. -/
def utf8Len (s : String) : Nat :=
  s.data.foldl (fun n c => n + c.utf8Size) 0

/-! ## Safety and tools mapping (main.go:42-65) -/

/-- The static persona override table `agentSafetyMap` (main.go:42-59),
in source order. -/
def agentSafetyMap : List (String × String) :=
  [("analyst", "safe"), ("architect", "safe"), ("pm", "safe"),
   ("sm", "safe"), ("tea", "safe"), ("tech-writer", "safe"),
   ("ux-designer", "safe"), ("dev", "destructive"),
   ("quick-flow-solo-dev", "destructive"),
   ("game-dev", "destructive"), ("game-solo-dev", "destructive"),
   ("game-architect", "safe"), ("game-designer", "safe"),
   ("game-scrum-master", "safe"), ("game-qa", "safe"),
   ("brainstorming-coach", "safe"), ("creative-problem-solver", "safe"),
   ("design-thinking-coach", "safe"), ("innovation-strategist", "safe"),
   ("presentation-master", "safe"), ("storyteller", "safe"),
   ("bmad-builder", "destructive"), ("agent-builder", "destructive"),
   ("module-builder", "destructive"), ("workflow-builder", "destructive")]

/-- The global tier-to-capability table `safetyToolsMap` (main.go:61-65).
Indexing a Go map at an absent key yields the zero value (empty list). -/
def safetyToolsMap (tier : String) : List String :=
  if tier = "safe" then ["read_file", "grep", "list_dir", "ask_user_question"]
  else if tier = "neutral" then
    ["read_file", "grep", "list_dir", "write_file", "search_replace",
     "ask_user_question"]
  else if tier = "destructive" then
    ["read_file", "grep", "list_dir", "write_file", "search_replace",
     "bash", "ask_user_question", "task"]
  else []

/-- `safetyForAgent` (main.go:839-844): override-table lookup with
default `"neutral"`. -/
def safetyForAgent (slug : String) : String :=
  (lookupS slug agentSafetyMap).getD "neutral"

/-- `workflowSafety` (main.go:846-852): case-insensitive substring
heuristic, never consulting the override table. -/
def workflowSafety (name : String) : String :=
  let lower := lowerStr name
  if strContains lower "dev" || strContains lower "implement" then "destructive"
  else "neutral"

/-! ## Identifier derivation (main.go:854-870) -/

/-- One step of the directory-segment loop in `buildSkillSlug`
(main.go:858-864): strip the structural prefixes, then append unless the
remnant is `"."` or empty. -/
def slugStep (acc : String) (p : String) : String :=
  let p1 := trimPre p "workflow-"
  let p2 := trimPre p1 "bmad-"
  if !(p2 == ".") && !(p2 == "") then acc ++ "-" ++ p2 else acc

/-- `buildSkillSlug` (main.go:854-870). The Go function receives the
path `rel` relative to the workflows directory and splits `Dir(rel)` on
the path separator; here the caller passes those directory segments
directly (`filepath.Dir` of a top-level file is `"."`, a segment the
loop drops, so passing `[]` for a top-level file is equivalent). -/
def buildSkillSlug (module : String) (dirParts : List String) (name : String) : String :=
  let slug := dirParts.foldl slugStep ("bmad-" ++ module)
  if strStartsWith name "workflow-" then
    slug ++ "-" ++ trimSuf (trimPre name "workflow-") ".md"
  else slug

/-! ## Metadata extraction (main.go:807-828) -/

/-- Index of the first occurrence of a character, modelling Go
`strings.Index` with a one-character pattern. -/
def idxOfCh (c : Char) : List Char → Option Nat
  | [] => none
  | a :: t => if a == c then some 0 else (idxOfCh c t).map (· + 1)

/-- Suffix of `hay` following the first occurrence of `pat`; `none` when
`pat` does not occur. Models the position at which the regular
expression `attr="([^"]*)"` starts capturing. -/
def findAfterPat (hay pat : List Char) : Option (List Char) :=
  match hay with
  | [] => if lstStartsWith [] pat then some [] else none
  | a :: t =>
    if lstStartsWith (a :: t) pat then some ((a :: t).drop pat.length)
    else findAfterPat t pat

/-- `extractXMLAttr` (main.go:817-828): bounded to the leading tag (text
up to and including the first `>`), find the first `attr="` and capture
up to the next `"`. The Go regular expression `attr="([^"]*)"` requires
a closing quote; if the capture runs to the end of the leading tag
without one there is no match (and in that case no later occurrence can
match either, since a later `attr="` would itself supply a quote). -/
def extractXMLAttr (raw attr : String) : String :=
  match idxOfCh '>' raw.data with
  | none => ""
  | some i =>
    let head := raw.data.take (i + 1)
    match findAfterPat head (attr.data ++ ['=', '"']) with
    | none => ""
    | some rest =>
      let v := rest.takeWhile fun c => !(c == '"')
      if v.length = rest.length then "" else ⟨v⟩

/-- `agentMeta` (main.go:89-95). -/
structure AgentMeta where
  slug : String
  name : String
  title : String
  icon : String
  description : String
deriving DecidableEq

/-- `extractAgentMeta` (main.go:807-815). -/
def extractAgentMeta (slug raw : String) : AgentMeta :=
  { slug := slug
    name := extractXMLAttr raw "name"
    title := extractXMLAttr raw "title"
    icon := extractXMLAttr raw "icon"
    description := extractXMLAttr raw "description" }

/-- RE2 `\s`: `[\t\n\f\r ]`. -/
def dropRegexSpaces (s : List Char) : List Char :=
  s.dropWhile fun c => c == '\t' || c == '\n' || c == '\x0c' || c == '\r' || c == ' '

/-- Attempt the regular expression `key\s*=\s*"([^"]*)"` at the head of
`s`: the key, greedy whitespace, `=`, greedy whitespace, an opening
quote, then capture up to the next quote, which must exist. -/
def matchTOMLAt (key s : List Char) : Option (List Char) :=
  if lstStartsWith s key then
    match dropRegexSpaces (s.drop key.length) with
    | '=' :: r2 =>
      match dropRegexSpaces r2 with
      | '"' :: r3 =>
        let v := r3.takeWhile fun c => !(c == '"')
        if v.length = r3.length then none else some v
      | _ => none
    | _ => none
  else none

/-- Leftmost match of `key\s*=\s*"([^"]*)"`. -/
def scanTOML (key : List Char) : List Char → Option (List Char)
  | [] => none
  | c :: t =>
    match matchTOMLAt key (c :: t) with
    | some v => some v
    | none => scanTOML key t

/-- `extractTOMLVal` (main.go:830-837): first match of the regular
expression `key\s*=\s*"([^"]*)"` anywhere in the rendered content —
earlier field values that happen to contain such text win over the
real line. Empty string when there is no match. -/
def extractTOMLVal (content key : String) : String :=
  match scanTOML key.data content.data with
  | none => ""
  | some v => ⟨v⟩

def skillRefPat : List Char := "Skill slug: `".data

/-- Attempt the regular expression ``Skill slug: `([^`]+)` `` at the
head of `s` (non-empty capture, closing backtick required). -/
def matchSkillAt (s : List Char) : Option (List Char) :=
  if lstStartsWith s skillRefPat then
    let r := s.drop skillRefPat.length
    let v := r.takeWhile fun c => !(c == '`')
    if v.length = 0 then none
    else if v.length = r.length then none
    else some v
  else none

def scanSkill : List Char → Option (List Char)
  | [] => none
  | c :: t =>
    match matchSkillAt (c :: t) with
    | some v => some v
    | none => scanSkill t

/-- The validator's skill-reference extraction (main.go:736-737): the
first match of ``Skill slug: `([^`]+)` `` anywhere in the rendered
prompt body — including inside the verbatim embedded source text of a
persona prompt. -/
def extractSkillRef (body : String) : Option String :=
  (scanSkill body.data).map fun v => ⟨v⟩

/-! ## Artifact builders (main.go:288-350, 400-451, 531-557)

The builders are pure renderers; what the validator later re-reads from
the rendered text (via `extractTOMLVal` and the skill-slug regular
expression) are exactly the field values below, so the records are the
shallow embedding of the rendered artifacts. -/

/-- The key/value fields of an agent TOML record together with its full
rendered text (`text`). `isShortcut` records which builder produced the
record (Phase 1 persona vs. Phase 4 shortcut); the validator itself
never reads this flag — it greps the rendered `text` for the
`"workflow shortcut"` marker comment (main.go:631, 731). -/
structure AgentRecord where
  displayName : String
  description : String
  safety : String
  autoApprove : Bool
  systemPromptId : String
  enabledTools : List String
  isShortcut : Bool
  text : String
deriving DecidableEq

/-- `buildAgentTOML` (main.go:288-313), fields and rendered text
(main.go:302-311). -/
def buildAgentTOML (vibeSlug module : String) (meta : AgentMeta) (safety : String) :
    AgentRecord :=
  let tools := safetyToolsMap safety
  let base := "BMAD " ++ upperStr module ++ " " ++ meta.title
  let displayName :=
    if !(meta.name == "") && !(meta.name == meta.title) then
      base ++ " (" ++ meta.name ++ ")"
    else base
  let desc :=
    if meta.description == "" then
      "BMAD " ++ upperStr module ++ " agent: " ++ meta.title
    else meta.description
  { displayName := displayName
    description := desc
    safety := safety
    autoApprove := safety == "safe"
    systemPromptId := vibeSlug
    enabledTools := tools
    isShortcut := false
    text :=
      "# Auto-generated by bmad2vibe\n" ++
      "# BMAD Agent: " ++ vibeSlug ++ "\n" ++
      "# Source module: " ++ module ++ " | Persona: " ++ meta.icon ++ " " ++
        meta.name ++ "\n\n" ++
      "display_name = " ++ goQuote displayName ++ "\n" ++
      "description = " ++ goQuote desc ++ "\n" ++
      "safety = " ++ goQuote safety ++ "\n" ++
      "auto_approve = " ++ (if safety == "safe" then "true" else "false") ++ "\n" ++
      "system_prompt_id = " ++ goQuote vibeSlug ++ "\n" ++
      "\nenabled_tools = [" ++ joinQuoted tools ++ "]\n" }

/-- The workflow shortcut agent record rendered inline in
`generateWorkflowAgents` (main.go:531-544), fields and rendered text
(main.go:537-544). -/
def workflowAgentRecord (module shortName agentSlug skillSlug : String) : AgentRecord :=
  let title := toTitle shortName
  let safety := workflowSafety shortName
  { displayName := "BMAD " ++ title
    description := "BMAD " ++ upperStr module ++ " workflow: " ++ title
    safety := safety
    autoApprove := !(safety == "destructive")
    systemPromptId := agentSlug
    enabledTools := safetyToolsMap safety
    isShortcut := true
    text :=
      "# Auto-generated workflow shortcut agent by bmad2vibe\n" ++
      "# Runs workflow " ++ skillSlug ++ " directly.\n\n" ++
      "display_name = " ++ goQuote ("BMAD " ++ title) ++ "\n" ++
      "description = " ++
        goQuote ("BMAD " ++ upperStr module ++ " workflow: " ++ title) ++ "\n" ++
      "safety = " ++ goQuote safety ++ "\n" ++
      "auto_approve = " ++ (if !(safety == "destructive") then "true" else "false") ++
        "\n" ++
      "system_prompt_id = " ++ goQuote agentSlug ++ "\n" ++
      "\nenabled_tools = [" ++ joinQuoted (safetyToolsMap safety) ++ "]\n" }

/-- A prompt document, as the builder inputs it is rendered from.
Persona prompts are rendered by `buildAgentPrompt` (main.go:315-350)
from module, slug, metadata and the raw XML body; shortcut prompts
(main.go:546-557) from the title and skill slug. -/
inductive PromptDoc
  | persona (module slug : String) (meta : AgentMeta) (rawXML : String)
  | shortcut (title skillSlug : String)
deriving DecidableEq

/-- The structural skill reference a prompt's builder embeds: Phase 4
writes ``Skill slug: `<skillSlug>` `` into a shortcut prompt
(main.go:557); `buildAgentPrompt` embeds no such reference of its own.
This is the builder-side fact; what the validator actually recovers is
`extractSkillRef` applied to the rendered text, which may also match
inside source-derived text. -/
def PromptDoc.skillRef : PromptDoc → Option String
  | .persona _ _ _ _ => none
  | .shortcut _ k => some k

/-- The rendered prompt text: `buildAgentPrompt` (main.go:315-350) for
persona prompts, the inline shortcut prompt of `generateWorkflowAgents`
(main.go:546-557) for shortcut prompts. -/
def promptText : PromptDoc → String
  | .persona module slug meta rawXML =>
    "# " ++ meta.icon ++ " " ++ meta.title ++
    (if !(meta.name == "") then " (" ++ meta.name ++ ")" else "") ++
    "\n\n" ++
    "> Module: " ++ upperStr module ++ " | Agent: " ++ slug ++
      " | Generated by bmad2vibe\n\n" ++
    "## Vibe Runtime Adaptation\n\n" ++
    "You are running inside **Mistral Vibe** CLI, NOT Claude Code/Cursor/Windsurf.\n" ++
    "Apply these substitutions when following BMAD instructions:\n\n" ++
    "| BMAD reference | Vibe equivalent |\n" ++
    "|---|---|\n" ++
    "| `\x7bproject-root\x7d` | Current working directory |\n" ++
    "| `\x7boutput_folder\x7d` | `_bmad-output/` |\n" ++
    "| `\x7bplanning_artifacts\x7d` | `_bmad-output/planning-artifacts/` |\n" ++
    "| `\x7bimplementation_artifacts\x7d` | `_bmad-output/implementation-artifacts/` |\n" ++
    "| Slash commands (`/bmad-...`) | Execute the workflow instructions inline |\n" ++
    "| `ask_user_question` | Vibe interactive question tool |\n" ++
    "| `workflow.xml` engine | Follow workflow steps sequentially |\n" ++
    "| `task` tool (subagent) | Vibe `task` tool for delegation |\n\n" ++
    "When a menu item references a workflow, read its SKILL.md from\n" ++
    "`~/.vibe/skills/bmad-" ++ module ++ "-<workflow-name>/SKILL.md` and execute it.\n\n" ++
    "## Full Agent Definition\n\n" ++
    "Follow the agent specification below exactly, adapting tool calls to Vibe.\n\n" ++
    "```xml\n" ++ trimSpace rawXML ++ "\n```\n"
  | .shortcut title skillSlug =>
    "# BMAD Workflow: " ++ title ++ "\n\n" ++
    "> Workflow shortcut agent — auto-generated by bmad2vibe.\n\n" ++
    "## Instructions\n\n" ++
    "1. Read `~/.vibe/skills/" ++ skillSlug ++ "/SKILL.md`\n" ++
    "2. Follow all instructions sequentially\n" ++
    "3. Substitute `\x7bproject-root\x7d` → cwd\n" ++
    "4. Substitute `\x7boutput_folder\x7d` → `_bmad-output/`\n" ++
    "5. Substitute `\x7bplanning_artifacts\x7d` → `_bmad-output/planning-artifacts/`\n" ++
    "6. Use `ask_user_question` for interactive prompts\n\n" ++
    "Skill slug: `" ++ skillSlug ++ "`\n"

/-- A skill document (SKILL.md). `buildWorkflowSkill` (main.go:400-451)
and the task renderer (main.go:474-485) produce front matter plus the
source body; the auxiliary steps/data/template sections are opaque
content carried inside `body` here (no claim inspects skill bodies). -/
inductive SkillDoc
  | workflow (module slug body : String)
  | task (module slug body : String)
deriving DecidableEq

/-! ## Source tree and store model -/

/-- One workflow source file: its directory segments relative to the
module's workflows directory (in `filepath.Walk` order) and its name
and content. -/
structure WorkflowFile where
  dirParts : List String
  name : String
  body : String
deriving DecidableEq

/-- One module of the source trees. `none` for `agentFiles` or
`workflowFiles` models a missing directory (main.go:247-250, 356-359);
a missing tasks directory behaves like an empty list (main.go:456-459). -/
structure Module where
  name : String
  agentFiles : Option (List (String × String))
  workflowFiles : Option (List WorkflowFile)
  taskFiles : List (String × String)
  hasData : Bool
  hasDocs : Bool
deriving DecidableEq

/-- The artifact store: the files under `<vibeHome>/agents`,
`<vibeHome>/prompts` and `<vibeHome>/skills`, plus the generated
discovery index (AGENTS.md, kept as the agent listing it is rendered
from). `skillDirs` maps a container slug to whether it holds a
SKILL.md. -/
structure Store where
  agents : List (String × AgentRecord)
  prompts : List (String × PromptDoc)
  skillDirs : List (String × Bool)
  agentsMD : Option (List (String × AgentRecord))
deriving DecidableEq

/-- `conversionReport` (main.go:78-87). -/
structure Report where
  agents : List String
  prompts : List String
  skills : List String
  warnings : List String
  errors : List String
deriving DecidableEq

/-- A rendered artifact, for the (identifier, rendered-text) pairs the
builders compute. -/
inductive Artifact
  | agent (r : AgentRecord)
  | prompt (p : PromptDoc)
  | skill (s : SkillDoc)
deriving DecidableEq

/-- Pipeline state: the store (the filesystem), the
(identifier, rendered-artifact) pairs computed so far by the builders
(computed in both modes; `writeFile` only persists them when not in
dry-run, main.go:939-948), and the report. -/
structure PState where
  store : Store
  pairs : List (String × Artifact)
  report : Report
deriving DecidableEq

/-- Overwriting file write into an association list
(`os.WriteFile` semantics: replace if present, create otherwise). -/
def upsert {α : Type} (k : String) (v : α) : List (String × α) → List (String × α)
  | [] => [(k, v)]
  | (k', v') :: t => if k' = k then (k, v) :: t else (k', v') :: upsert k v t

/-- `os.MkdirAll` semantics for a skill container: create without a
SKILL.md if absent, leave untouched if present (used by Phase 5's
`copyDir`, which never deletes files). -/
def ensureDir (k : String) (m : List (String × Bool)) : List (String × Bool) :=
  match lookupS k m with
  | some _ => m
  | none => m ++ [(k, false)]

def emptyStore : Store := ⟨[], [], [], none⟩

def emptyReport : Report := ⟨[], [], [], [], []⟩

def initPS (st0 : Store) (rep0 : Report) : PState := ⟨st0, [], rep0⟩

/-! ## Phase 1: agent conversion (`convertAgents`, main.go:245-286) -/

/-- The identifier of a persona agent: `fmt.Sprintf("bmad-%s-%s", module,
slug)` (main.go:268). -/
def personaSlug (module fname : String) : String :=
  "bmad-" ++ module ++ "-" ++ trimSuf fname ".xml"

/-- One directory entry of the module's bundles agents dir
(main.go:253-285). Entries that are not `.xml` files are skipped. -/
def phase1Item (dry : Bool) (module : String) (ps : PState) (f : String × String) :
    PState :=
  if !(strEndsWith f.1 ".xml") then ps
  else
    let slug := trimSuf f.1 ".xml"
    let meta := extractAgentMeta slug f.2
    let vibeSlug := "bmad-" ++ module ++ "-" ++ slug
    let safety := safetyForAgent slug
    let r := buildAgentTOML vibeSlug module meta safety
    let pd := PromptDoc.persona module slug meta f.2
    { store :=
        if dry then ps.store
        else { ps.store with
                agents := upsert vibeSlug r ps.store.agents
                prompts := upsert vibeSlug pd ps.store.prompts }
      pairs := ps.pairs ++ [(vibeSlug, .agent r), (vibeSlug, .prompt pd)]
      report := { ps.report with
                  agents := ps.report.agents ++ [vibeSlug]
                  prompts := ps.report.prompts ++ [vibeSlug] } }

def phase1Mod (dry : Bool) (ps : PState) (m : Module) : PState :=
  match m.agentFiles with
  | none =>
    { ps with report := { ps.report with
        warnings := ps.report.warnings ++
          ["no agents dir for module \x22" ++ m.name ++ "\x22 in bundles"] } }
  | some fs => fs.foldl (phase1Item dry m.name) ps

def phase1 (dry : Bool) (mods : List Module) (ps : PState) : PState :=
  mods.foldl (phase1Mod dry) ps

/-! ## Phase 2: workflows to skills (`convertWorkflows`, main.go:354-398) -/

/-- The walk filter (main.go:366, 516): names starting with `workflow`
and ending in `.md`. -/
def wfFilter (w : WorkflowFile) : Bool :=
  strStartsWith w.name "workflow" && strEndsWith w.name ".md"

def wfSkillSlug (module : String) (w : WorkflowFile) : String :=
  buildSkillSlug module w.dirParts w.name

def phase2Item (dry : Bool) (module : String) (ps : PState) (w : WorkflowFile) :
    PState :=
  if !(wfFilter w) then ps
  else
    let slug := wfSkillSlug module w
    let sk := SkillDoc.workflow module slug w.body
    { store :=
        if dry then ps.store
        else { ps.store with skillDirs := upsert slug true ps.store.skillDirs }
      pairs := ps.pairs ++ [(slug, .skill sk)]
      report := { ps.report with skills := ps.report.skills ++ [slug] } }

def phase2Mod (dry : Bool) (ps : PState) (m : Module) : PState :=
  match m.workflowFiles with
  | none =>
    { ps with report := { ps.report with
        warnings := ps.report.warnings ++
          ["no workflows dir for module \x22" ++ m.name ++ "\x22"] } }
  | some ws => ws.foldl (phase2Item dry m.name) ps

def phase2 (dry : Bool) (mods : List Module) (ps : PState) : PState :=
  mods.foldl (phase2Mod dry) ps

/-! ## Phase 3: tasks to skills (`convertTasks`, main.go:455-500) -/

def taskSkillSlug (module fname : String) : String :=
  "bmad-" ++ module ++ "-task-" ++ trimSuf fname ".md"

def phase3Item (dry : Bool) (module : String) (ps : PState) (f : String × String) :
    PState :=
  if !(strEndsWith f.1 ".md") then ps
  else
    let skillSlug := taskSkillSlug module f.1
    let sk := SkillDoc.task module skillSlug f.2
    { store :=
        if dry then ps.store
        else { ps.store with skillDirs := upsert skillSlug true ps.store.skillDirs }
      pairs := ps.pairs ++ [(skillSlug, .skill sk)]
      report := { ps.report with skills := ps.report.skills ++ [skillSlug] } }

def phase3Mod (dry : Bool) (ps : PState) (m : Module) : PState :=
  m.taskFiles.foldl (phase3Item dry m.name) ps

def phase3 (dry : Bool) (mods : List Module) (ps : PState) : PState :=
  mods.foldl (phase3Mod dry) ps

/-! ## Phase 4: workflow shortcut agents (`generateWorkflowAgents`,
main.go:505-571) -/

def wfShortName (module : String) (w : WorkflowFile) : String :=
  trimPre (wfSkillSlug module w) ("bmad-" ++ module ++ "-")

def wfAgentSlug (module : String) (w : WorkflowFile) : String :=
  "bmad-" ++ module ++ "-" ++ wfShortName module w

/-- One workflow file of Phase 4 (main.go:511-570). The `fileExists`
check on `agents/<agentSlug>.toml` (main.go:526-529) consults the real
filesystem, i.e. the store, in both modes; a hit skips the item so the
record from Phase 1 (or from an earlier shortcut) is never overwritten. -/
def phase4Item (dry : Bool) (module : String) (ps : PState) (w : WorkflowFile) :
    PState :=
  if !(wfFilter w) then ps
  else
    let skillSlug := wfSkillSlug module w
    let shortName := wfShortName module w
    let agentSlug := wfAgentSlug module w
    match lookupS agentSlug ps.store.agents with
    | some _ => ps
    | none =>
      let r := workflowAgentRecord module shortName agentSlug skillSlug
      let pd := PromptDoc.shortcut (toTitle shortName) skillSlug
      { store :=
          if dry then ps.store
          else { ps.store with
                  agents := upsert agentSlug r ps.store.agents
                  prompts := upsert agentSlug pd ps.store.prompts }
        pairs := ps.pairs ++ [(agentSlug, .agent r), (agentSlug, .prompt pd)]
        report := { ps.report with
                    agents := ps.report.agents ++ [agentSlug ++ " (workflow)"]
                    prompts := ps.report.prompts ++ [agentSlug] } }

def phase4Mod (dry : Bool) (ps : PState) (m : Module) : PState :=
  match m.workflowFiles with
  | none => ps
  | some ws => ws.foldl (phase4Item dry m.name) ps

def phase4 (dry : Bool) (mods : List Module) (ps : PState) : PState :=
  mods.foldl (phase4Mod dry) ps

/-! ## Phase 5: supporting data (`copyModuleData`, main.go:575-594) -/

/-- Phase 5 copies a module's `data`/`docs` directories into skill
containers named `bmad-<module>-data` / `bmad-<module>-docs`; the copied
files are opaque and `copyDir` never writes a SKILL.md of its own. In
dry-run the copy is only announced (main.go:583-586). -/
def phase5Mod (dry : Bool) (ps : PState) (m : Module) : PState :=
  if dry then ps
  else
    let d1 := if m.hasData then
        ensureDir ("bmad-" ++ m.name ++ "-data") ps.store.skillDirs
      else ps.store.skillDirs
    let d2 := if m.hasDocs then ensureDir ("bmad-" ++ m.name ++ "-docs") d1 else d1
    { ps with store := { ps.store with skillDirs := d2 } }

def phase5 (dry : Bool) (mods : List Module) (ps : PState) : PState :=
  mods.foldl (phase5Mod dry) ps

/-! ## Phase 6: discovery index (`generateAgentsMD`, main.go:598-652) -/

/-- In dry-run the whole phase is replaced by a log line (main.go:599-602)
and no index is rendered; otherwise the index document is generated from
the agent records on disk. -/
def phase6 (dry : Bool) (ps : PState) : PState :=
  if dry then ps
  else { ps with store := { ps.store with agentsMD := some ps.store.agents } }

/-! ## Phase 7: validation (`validate`, main.go:656-753) -/

/-- The accepted safety strings (main.go:691). -/
def validSafetyB (s : String) : Bool :=
  s == "safe" || s == "neutral" || s == "destructive" || s == "yolo"

/-- Check 1 (main.go:670-695): per agent TOML (glob `bmad-*.toml`), the
validator re-reads the rendered text: `system_prompt_id` and `safety`
are recovered with the first-match regular expression of
`extractTOMLVal` (spoofable by earlier field values), the four
mandatory fields are tested with substring greps. Error when the
extracted id is empty (then `continue`), when the referenced prompt
file does not exist, when a field grep fails, or when the extracted
safety is not an accepted tier. -/
def check1errs (st : Store) : List String :=
  (st.agents.filter fun p => strStartsWith p.1 "bmad-").flatMap fun p =>
    let c := p.2.text
    let pid := extractTOMLVal c "system_prompt_id"
    if pid == "" then [p.1 ++ ": missing system_prompt_id"]
    else
      (if (lookupS pid st.prompts).isSome then []
       else [p.1 ++ ": prompt " ++ pid ++ ".md not found"]) ++
      (["display_name", "description", "safety", "enabled_tools"].flatMap fun f =>
        if strContains c (f ++ " =") || strContains c (f ++ "=") then []
        else [p.1 ++ ": missing field " ++ f]) ++
      (if validSafetyB (extractTOMLVal c "safety") then []
       else [p.1 ++ ": invalid safety " ++ extractTOMLVal c "safety"])

/-- Check 2 (main.go:698-703): prompts whose persisted byte size is
below 50 are flagged (warning). -/
def check2warns (st : Store) : List String :=
  (st.prompts.filter fun p => strStartsWith p.1 "bmad-").flatMap fun p =>
    if utf8Len (promptText p.2) < 50 then
      [p.1 ++ ".md: suspiciously small"]
    else []

/-- Check 3 (main.go:706-711): prompts (glob `bmad-*.md`) without a
matching agent record are flagged as orphans (warning). -/
def check3warns (st : Store) : List String :=
  (st.prompts.filter fun p => strStartsWith p.1 "bmad-").flatMap fun p =>
    if (lookupS p.1 st.agents).isSome then [] else ["orphaned prompt: " ++ p.1 ++ ".md"]

/-- Check 4 (main.go:714-725): skill containers (prefix `bmad-`) missing
a SKILL.md are flagged (warning) unless their name ends in `-data` or
`-docs`. -/
def check4warns (st : Store) : List String :=
  (st.skillDirs.filter fun p => strStartsWith p.1 "bmad-").flatMap fun p =>
    if p.2 then []
    else if strEndsWith p.1 "-data" || strEndsWith p.1 "-docs" then []
    else ["skill " ++ p.1 ++ ": missing SKILL.md"]

/-- Check 5 (main.go:728-741): an agent TOML counts as a shortcut when
its rendered text contains the substring `"workflow shortcut"` — which
source-derived field values can also contain. The prompt named by the
re-extracted `system_prompt_id` is read (an absent file reads as the
empty string), the skill slug is recovered with the backtick regular
expression over the full rendered prompt body — including the verbatim
embedded source text of a persona prompt — and a match that does not
resolve to a skill container is an error. -/
def check5errs (st : Store) : List String :=
  (st.agents.filter fun p => strStartsWith p.1 "bmad-").flatMap fun p =>
    let c := p.2.text
    if !(strContains c "workflow shortcut") then []
    else
      let pid := extractTOMLVal c "system_prompt_id"
      let pData :=
        match lookupS pid st.prompts with
        | none => ""
        | some pd => promptText pd
      match extractSkillRef pData with
      | none => []
      | some k =>
        if (lookupS k st.skillDirs).isSome then []
        else [p.1 ++ ".toml: skill " ++ k ++ " not found"]

/-- `validate` (main.go:656-753): skipped entirely in dry-run
(main.go:657-660); otherwise each check appends its findings in source
order (errors from checks 1 and 5, warnings from checks 2, 3 and 4). -/
def phase7 (dry : Bool) (ps : PState) : PState :=
  if dry then ps
  else
    { ps with report := { ps.report with
        errors := ps.report.errors ++ check1errs ps.store ++ check5errs ps.store
        warnings := ps.report.warnings ++ check2warns ps.store ++
          check3warns ps.store ++ check4warns ps.store } }

/-! ## The pipeline (main.go:99-193) -/

/-- Phases 1-3 of the run, from a given initial store and report. -/
def runPhases123From (dry : Bool) (st0 : Store) (rep0 : Report)
    (mods : List Module) : PState :=
  phase3 dry mods (phase2 dry mods (phase1 dry mods (initPS st0 rep0)))

/-- The full pipeline (main.go:154-192), from a given initial store
(the pre-existing contents of the vibe home) and report. -/
def runPipelineFrom (dry : Bool) (st0 : Store) (rep0 : Report)
    (mods : List Module) : PState :=
  phase7 dry (phase6 dry (phase5 dry mods
    (phase4 dry mods (runPhases123From dry st0 rep0 mods))))

/-- The pipeline on a fresh store, as `main` runs it. -/
def runPipeline (dry : Bool) (mods : List Module) : PState :=
  runPipelineFrom dry emptyStore emptyReport mods

/-- The process exit status decided by `printReport` (main.go:788-794):
`os.Exit(1)` when the collected error list is non-empty, normal exit 0
otherwise. -/
def exitCode (r : Report) : Nat := if r.errors = [] then 0 else 1

/-! ## Generic fold lemmas -/

theorem foldl_inv {σ α : Type} {f : σ → α → σ} {I : σ → Prop}
    (H : ∀ s a, I s → I (f s a)) :
    ∀ (l : List α) (s : σ), I s → I (l.foldl f s) := by
  intro l
  induction l with
  | nil => intro s h; exact h
  | cons a t ih => intro s h; exact ih _ (H _ _ h)

theorem foldl_inv_mem {σ α : Type} {f : σ → α → σ} {I : σ → Prop} :
    ∀ (l : List α), (∀ s a, a ∈ l → I s → I (f s a)) →
      ∀ (s : σ), I s → I (l.foldl f s) := by
  intro l
  induction l with
  | nil => intro _ s h; exact h
  | cons a t ih =>
    intro H s h
    exact ih (fun s b hb => H s b (List.mem_cons_of_mem a hb)) _
      (H s a (List.mem_cons_self a t) h)

theorem foldl_rel {σ τ α : Type} {f : σ → α → σ} {g : τ → α → τ}
    {R : σ → τ → Prop} :
    ∀ (l : List α), (∀ s t a, a ∈ l → R s t → R (f s a) (g t a)) →
      ∀ (s : σ) (t : τ), R s t → R (l.foldl f s) (l.foldl g t) := by
  intro l
  induction l with
  | nil => intro _ s t h; exact h
  | cons a tl ih =>
    intro H s t h
    exact ih (fun s t b hb => H s t b (List.mem_cons_of_mem a hb)) _ _
      (H s t a (List.mem_cons_self a tl) h)

/-- After folding, a property established when an element is processed
and preserved by every later step holds for every element of the list. -/
theorem foldl_reaches {σ α : Type} {f : σ → α → σ} {P : α → σ → Prop}
    (Hstep : ∀ s a, P a (f s a)) (Hmono : ∀ s a b, P a s → P a (f s b)) :
    ∀ (l : List α) (s : σ) (a : α), a ∈ l → P a (l.foldl f s) := by
  intro l
  induction l with
  | nil => intro s a ha; cases ha
  | cons b t ih =>
    intro s a ha
    rcases List.mem_cons.mp ha with h | h
    · subst h
      exact foldl_inv (fun s c hc => Hmono s a c hc) t _ (Hstep s a)
    · exact ih _ a h

theorem flatMap_eq_nil_of {α β : Type} {f : α → List β} :
    ∀ (l : List α), (∀ a ∈ l, f a = []) → l.flatMap f = [] := by
  intro l
  induction l with
  | nil => intro _; rfl
  | cons a t ih =>
    intro h
    simp only [List.flatMap_cons, h a (List.mem_cons_self a t),
      List.nil_append]
    exact ih fun b hb => h b (List.mem_cons_of_mem a hb)

/-! ## Lookup and upsert lemmas -/

theorem lookupS_mem {α : Type} {k : String} {v : α} :
    ∀ {tbl : List (String × α)}, lookupS k tbl = some v → (k, v) ∈ tbl := by
  intro tbl
  induction tbl with
  | nil => intro h; cases h
  | cons p t ih =>
    intro h
    obtain ⟨k1, v1⟩ := p
    simp only [lookupS] at h
    by_cases hk : k = k1
    · rw [if_pos hk] at h
      cases h
      rw [hk]
      exact List.mem_cons_self _ _
    · rw [if_neg hk] at h
      exact List.mem_cons_of_mem _ (ih h)

theorem lookup_upsert {α : Type} (k k' : String) (v : α) :
    ∀ (m : List (String × α)),
      lookupS k (upsert k' v m) = if k = k' then some v else lookupS k m := by
  intro m
  induction m with
  | nil => simp [upsert, lookupS]
  | cons p t ih =>
    obtain ⟨k1, v1⟩ := p
    simp only [upsert]
    by_cases h1 : k1 = k'
    · subst h1
      simp only [lookupS]
      by_cases h2 : k = k1 <;> simp [h2]
    · rw [if_neg h1]
      simp only [lookupS]
      by_cases h2 : k = k1
      · have hkk : k ≠ k' := by rw [h2]; exact h1
        simp [h2, hkk, h1]
      · simp [h2, ih]

theorem mem_upsert {α : Type} {p : String × α} {k : String} {v : α} :
    ∀ {m : List (String × α)}, p ∈ upsert k v m → p = (k, v) ∨ p ∈ m := by
  intro m
  induction m with
  | nil =>
    intro h
    simp only [upsert] at h
    exact Or.inl (List.mem_singleton.mp h)
  | cons q t ih =>
    intro h
    obtain ⟨k1, v1⟩ := q
    simp only [upsert] at h
    by_cases hq : k1 = k
    · rw [if_pos hq] at h
      rcases List.mem_cons.mp h with h | h
      · exact Or.inl h
      · exact Or.inr (List.mem_cons_of_mem _ h)
    · rw [if_neg hq] at h
      rcases List.mem_cons.mp h with h | h
      · exact Or.inr (by rw [h]; exact List.mem_cons_self _ _)
      · rcases ih h with h | h
        · exact Or.inl h
        · exact Or.inr (List.mem_cons_of_mem _ h)

theorem lookup_upsert_isSome {α : Type} {k : String} {m : List (String × α)}
    (k' : String) (v : α) (h : (lookupS k m).isSome = true) :
    (lookupS k (upsert k' v m)).isSome = true := by
  rw [lookup_upsert]
  by_cases hk : k = k' <;> simp [hk, h]

theorem lookup_append_of_some {α : Type} {k : String} {v : α} :
    ∀ {m : List (String × α)} (m2 : List (String × α)),
      lookupS k m = some v → lookupS k (m ++ m2) = some v := by
  intro m
  induction m with
  | nil => intro m2 h; cases h
  | cons p t ih =>
    intro m2 h
    obtain ⟨k1, v1⟩ := p
    simp only [lookupS] at h
    simp only [List.cons_append, lookupS]
    by_cases hk : k = k1
    · rwa [if_pos hk] at h ⊢
    · rw [if_neg hk] at h ⊢
      exact ih m2 h

theorem lookup_ensureDir {k k' : String} {m : List (String × Bool)}
    (h : (lookupS k m).isSome = true) :
    (lookupS k (ensureDir k' m)).isSome = true := by
  unfold ensureDir
  cases hl : lookupS k' m with
  | some b => exact h
  | none =>
    cases hk : lookupS k m with
    | none => rw [hk] at h; cases h
    | some v => rw [lookup_append_of_some _ hk]; rfl

/-! ## String lemmas -/

theorem str_data_append (a b : String) : (a ++ b).data = a.data ++ b.data := by
  cases a; cases b; rfl

theorem lstStartsWith_refl : ∀ (l : List Char), lstStartsWith l l = true := by
  intro l
  induction l with
  | nil => rfl
  | cons a t ih => simp [lstStartsWith, ih]

theorem lstStartsWith_nil_right : ∀ (l : List Char), lstStartsWith l [] = true := by
  intro l
  cases l <;> rfl

theorem lstStartsWith_append {a p : List Char} (b : List Char)
    (h : lstStartsWith a p = true) : lstStartsWith (a ++ b) p = true := by
  induction a generalizing p with
  | nil =>
    cases p with
    | nil => exact lstStartsWith_nil_right b
    | cons c t => simp [lstStartsWith] at h
  | cons x xs ih =>
    cases p with
    | nil => exact lstStartsWith_nil_right _
    | cons y ys =>
      simp only [lstStartsWith, Bool.and_eq_true] at h ⊢
      exact ⟨h.1, ih h.2⟩

/-! ## Dash-segment lemmas (for identifier well-formedness) -/

/-- An identifier has no empty dash-separated segment: splitting its
characters on `-` yields only non-empty parts (this rules out a leading
`-`, a trailing `-`, and any doubled `--`). -/
def noEmptySegB (s : String) : Bool :=
  (splitCh '-' s.data).all fun seg => !seg.isEmpty

theorem splitCh_ne_nil (c : Char) : ∀ (l : List Char), splitCh c l ≠ [] := by
  intro l
  cases l with
  | nil => simp [splitCh]
  | cons a t =>
    simp only [splitCh]
    cases hb : a == c
    · cases hs : splitCh c t <;> simp [hs]
    · simp

theorem splitCh_append (c : Char) : ∀ (xs ys : List Char),
    splitCh c (xs ++ c :: ys) = splitCh c xs ++ splitCh c ys := by
  intro xs ys
  induction xs with
  | nil => simp [splitCh]
  | cons a t ih =>
    cases hb : a == c
    · simp only [List.cons_append, splitCh, hb, List.append_eq, Bool.false_eq_true,
        if_false, ih]
      cases hs : splitCh c t with
      | nil => exact absurd hs (splitCh_ne_nil c t)
      | cons s rest => simp [hs]
    · simp [List.cons_append, splitCh, hb, ih]

theorem noEmptySegB_append_dash (a q : String) (ha : noEmptySegB a = true)
    (hq : noEmptySegB q = true) : noEmptySegB (a ++ "-" ++ q) = true := by
  unfold noEmptySegB at *
  have hd : (a ++ "-" ++ q).data = a.data ++ '-' :: q.data := by
    rw [str_data_append, str_data_append]
    simp
  rw [hd, splitCh_append, List.all_append, ha, hq]
  rfl

theorem noEmptySegB_bmad (module : String) (h : noEmptySegB module = true) :
    noEmptySegB ("bmad-" ++ module) = true := by
  unfold noEmptySegB at *
  have hd : ("bmad-" ++ module).data = "bmad".data ++ '-' :: module.data := by
    rw [str_data_append]
    rfl
  rw [hd, splitCh_append, List.all_append, h]
  rfl

/-! ## Classifier range lemmas -/

theorem safetyForAgent_range (s : String) :
    safetyForAgent s = "safe" ∨ safetyForAgent s = "destructive" ∨
      safetyForAgent s = "neutral" := by
  unfold safetyForAgent
  cases h : lookupS s agentSafetyMap with
  | none => right; right; rfl
  | some v =>
    have hv : ∀ p ∈ agentSafetyMap, p.2 = "safe" ∨ p.2 = "destructive" := by decide
    rcases hv _ (lookupS_mem h) with h' | h'
    · left; exact h'
    · right; left; exact h'

theorem workflowSafety_range (s : String) :
    workflowSafety s = "destructive" ∨ workflowSafety s = "neutral" := by
  unfold workflowSafety
  by_cases h :
      (strContains (lowerStr s) "dev" || strContains (lowerStr s) "implement") = true
  · left; simp only [h, if_true]
  · right; simp [h]

theorem safetyToolsMap_ne_nil {t : String}
    (h : t = "safe" ∨ t = "destructive" ∨ t = "neutral") :
    safetyToolsMap t ≠ [] := by
  rcases h with h | h | h <;> subst h <;> decide

theorem validSafetyB_of_range {t : String}
    (h : t = "safe" ∨ t = "destructive" ∨ t = "neutral") :
    validSafetyB t = true := by
  rcases h with h | h | h <;> subst h <;> decide

/-! ## Concrete source trees used as witnesses and counterexamples -/

/-- A module with a single nested workflow file, as in the spec's
example scenario. -/
def planningModule : Module :=
  ⟨"demo", some [], some [⟨["planning"], "workflow-create-spec.md", "wf body"⟩],
   [], false, false⟩

/-- The spec's Phase-1 example scenario: module `demo`, one persona file
`analyst.xml` whose leading tag carries `title="Analyst"` and no
`name`/`description` attributes. -/
def demoModule : Module :=
  ⟨"demo",
   some [("analyst.xml", "<agent id=\x22demo-analyst\x22 title=\x22Analyst\x22>persona</agent>")],
   some [], [], false, false⟩

/-- A module in which the Phase-4 shortcut identifier for
`workflow-x.md` collides with the Phase-1 persona identifier for
`x.xml` (both derive `bmad-m-x`). -/
def collideModule : Module :=
  ⟨"m", some [("x.xml", "<a title=\x22X\x22>")],
   some [⟨[], "workflow-x.md", "wf"⟩], [], false, false⟩

/-- Like `collideModule` but without the identifier collision. -/
def noCollideModule : Module :=
  ⟨"m", some [("x.xml", "<a title=\x22X\x22>")],
   some [⟨[], "workflow-y.md", "wf"⟩], [], false, false⟩

/-- A module whose only workflow file is named exactly `workflow.md` and
sits at the root of the workflows directory. -/
def rootWorkflowModule : Module :=
  ⟨"demo", some [], some [⟨[], "workflow.md", "wf"⟩], [], false, false⟩

/-! ## Claim C3 -/

/-- C3, counterexample: the claim states the override table always wins
over the heuristic, including for workflow identifiers. It does not:
`analyst` has override tier `safe`, yet the workflow call shape
(`workflowSafety`, which never consults the table) classifies `analyst`
as `neutral`. -/
theorem c3_counterexample :
    lookupS "analyst" agentSafetyMap = some "safe" ∧
    workflowSafety "analyst" = "neutral" ∧
    ("neutral" : String) ≠ "safe" := by
  refine ⟨by decide, by decide, by decide⟩

/-- C3, amended: the persona call shape (`safetyForAgent`) returns the
override table's tier when the identifier is present and `neutral`
otherwise; the workflow call shape (`workflowSafety`) never consults the
table — it returns `destructive` exactly when the lowercased identifier
contains `dev` or `implement`, and `neutral` otherwise, even for
identifiers the table maps to a different tier. -/
theorem c3_amended_classifier :
    (∀ s t, lookupS s agentSafetyMap = some t → safetyForAgent s = t) ∧
    (∀ s, lookupS s agentSafetyMap = none → safetyForAgent s = "neutral") ∧
    (∀ s, workflowSafety s = "destructive" ↔
      (strContains (lowerStr s) "dev" = true ∨
       strContains (lowerStr s) "implement" = true)) := by
  refine ⟨?_, ?_, ?_⟩
  · intro s t h
    unfold safetyForAgent
    rw [h]
    rfl
  · intro s h
    unfold safetyForAgent
    rw [h]
    rfl
  · intro s
    unfold workflowSafety
    cases hd : strContains (lowerStr s) "dev" <;>
      cases hi : strContains (lowerStr s) "implement" <;>
      simp [hd, hi]

/-- C3, witness for the amended theorem at concrete identifiers. -/
theorem c3_witness :
    safetyForAgent "analyst" = "safe" ∧ safetyForAgent "ghost" = "neutral" ∧
    workflowSafety "quick-dev-flow" = "destructive" :=
  ⟨c3_amended_classifier.1 "analyst" "safe" (by decide),
   c3_amended_classifier.2.1 "ghost" (by decide),
   (c3_amended_classifier.2.2 "quick-dev-flow").mpr (Or.inl (by decide))⟩

/-! ## Claim C7 -/

/-- C7: for every identifier, under either call shape of the safety
classifier, the returned tier is one of `safe`, `neutral`,
`destructive` — never the manual-only `yolo` — and the capability list
that the tier resolves to in `safetyToolsMap` is non-empty. -/
theorem c7_safety_tier_totality (s : String) :
    (safetyForAgent s = "safe" ∨ safetyForAgent s = "neutral" ∨
      safetyForAgent s = "destructive") ∧
    (workflowSafety s = "safe" ∨ workflowSafety s = "neutral" ∨
      workflowSafety s = "destructive") ∧
    safetyForAgent s ≠ "yolo" ∧ workflowSafety s ≠ "yolo" ∧
    safetyToolsMap (safetyForAgent s) ≠ [] ∧
    safetyToolsMap (workflowSafety s) ≠ [] := by
  have h1 := safetyForAgent_range s
  have h2 := workflowSafety_range s
  refine ⟨?_, ?_, ?_, ?_, safetyToolsMap_ne_nil h1, ?_⟩
  · rcases h1 with h | h | h <;> simp [h]
  · rcases h2 with h | h <;> simp [h]
  · rcases h1 with h | h | h <;> rw [h] <;> decide
  · rcases h2 with h | h <;> rw [h] <;> decide
  · apply safetyToolsMap_ne_nil
    rcases h2 with h | h
    · right; left; exact h
    · right; right; exact h

/-! ## Claim C8 -/

/-- C8: a workflow source item at relative path
`planning/workflow-create-spec.md` in module `demo` derives the skill
identifier `bmad-demo-planning-create-spec` — both as computed by
`buildSkillSlug` and as produced by the pipeline. -/
theorem c8_skill_slug_example :
    buildSkillSlug "demo" ["planning"] "workflow-create-spec.md" =
      "bmad-demo-planning-create-spec" ∧
    "bmad-demo-planning-create-spec" ∈
      (runPipeline false [planningModule]).report.skills := by
  refine ⟨by decide, by decide⟩

/-! ## Claim C4 -/

/-- C4, counterexample: on the spec's own example scenario (module
`demo`, persona file `analyst.xml` with `title="Analyst"` and no
`name`/`description` attributes) the produced record has tier `safe` —
`analyst` is present in the override table, contrary to the claim's
premise — with the safe four-tool list, `auto_approve = true`, and a
synthesized description that does not contain the literal string
`demo` (the module name is uppercased). -/
theorem c4_counterexample :
    (lookupS "bmad-demo-analyst" (runPipeline false [demoModule]).store.agents).map
        (fun r => (r.safety, r.autoApprove)) ≠ some ("neutral", false) ∧
    (lookupS "bmad-demo-analyst" (runPipeline false [demoModule]).store.agents).map
        (fun r => (r.safety, strContains r.description "demo")) =
      some ("safe", false) := by
  refine ⟨by decide, by decide⟩

/-- C4, amended: the scenario produces agent identifier
`bmad-demo-analyst` with tier `safe` (present in the override table),
the safe tier's four-tool capability list, `auto_approve = true`, and a
synthesized description containing the uppercased module name `DEMO`
and the title `Analyst`. -/
theorem c4_amended_demo_example :
    (lookupS "bmad-demo-analyst" (runPipeline false [demoModule]).store.agents).map
        (fun r => (r.safety, r.autoApprove, r.enabledTools,
          strContains r.description "DEMO", strContains r.description "Analyst")) =
      some ("safe", true, safetyToolsMap "safe", true, true) ∧
    (safetyToolsMap "safe").length = 4 ∧
    "bmad-demo-analyst" ∈ (runPipeline false [demoModule]).report.agents := by
  refine ⟨by decide, by decide, by decide⟩

/-! ## Claim C10 -/

/-- C10: in persisting mode, Phase 4 never overwrites an existing agent
record: when the derived shortcut identifier already resolves in the
store, the whole pipeline state is left unchanged — the existing record
is untouched and no shortcut record or prompt (and no rendered pair) is
produced for that identifier. -/
theorem c10_no_overwrite (module : String) (w : WorkflowFile) (ps : PState)
    (r : AgentRecord)
    (h : lookupS (wfAgentSlug module w) ps.store.agents = some r) :
    phase4Item false module ps w = ps ∧
    lookupS (wfAgentSlug module w) (phase4Item false module ps w).store.agents =
      some r := by
  have he : phase4Item false module ps w = ps := by
    unfold phase4Item
    split
    · rfl
    · simp only [h]
  exact ⟨he, by rw [he]; exact h⟩

/-- C10, witness: a concrete store already holding the record for
`bmad-m-x`; processing `workflow-x.md` leaves the state unchanged. -/
theorem c10_witness :
    lookupS (wfAgentSlug "m" ⟨[], "workflow-x.md", "wf"⟩)
        (PState.mk ⟨[("bmad-m-x", buildAgentTOML "bmad-m-x" "m" (extractAgentMeta "x" "") "neutral")], [], [], none⟩ [] emptyReport).store.agents =
      some (buildAgentTOML "bmad-m-x" "m" (extractAgentMeta "x" "") "neutral") ∧
    phase4Item false "m"
        (PState.mk ⟨[("bmad-m-x", buildAgentTOML "bmad-m-x" "m" (extractAgentMeta "x" "") "neutral")], [], [], none⟩ [] emptyReport)
        ⟨[], "workflow-x.md", "wf"⟩ =
      PState.mk ⟨[("bmad-m-x", buildAgentTOML "bmad-m-x" "m" (extractAgentMeta "x" "") "neutral")], [], [], none⟩ [] emptyReport :=
  ⟨by decide,
   (c10_no_overwrite "m" ⟨[], "workflow-x.md", "wf"⟩
     (PState.mk ⟨[("bmad-m-x", buildAgentTOML "bmad-m-x" "m" (extractAgentMeta "x" "") "neutral")], [], [], none⟩ [] emptyReport)
     (buildAgentTOML "bmad-m-x" "m" (extractAgentMeta "x" "") "neutral")
     (by decide)).1⟩

/-! ## Claim C1, counterexample -/

/-- C1, counterexample: the workflow shortcut agent rendered for
`planning/workflow-create-spec.md` has tier `neutral` and
`auto_approve = true` (Phase 4 derives the flag as tier ≠ destructive,
main.go:542), so `auto_approve` is not equivalent to tier = safe. -/
theorem c1_counterexample :
    (lookupS "bmad-demo-planning-create-spec"
        (runPipeline false [planningModule]).store.agents).map
        (fun r => (r.autoApprove, r.safety, r.isShortcut)) =
      some (true, "neutral", true) ∧
    ("neutral" : String) ≠ "safe" := by
  refine ⟨by decide, by decide⟩

/-! ## Claim C2, counterexample -/

/-- C2, counterexample: on `collideModule` the persisting run skips the
Phase-4 shortcut for `bmad-m-x` (its record was just persisted by
Phase 1) while the preview run — whose store never gains the Phase-1
record — renders the shortcut pair as well, so the two modes compute
different (identifier, rendered-text) pair sets. -/
theorem c2_counterexample :
    (runPipeline true [collideModule]).pairs ≠
      (runPipeline false [collideModule]).pairs ∧
    (runPipeline true [collideModule]).pairs.length = 5 ∧
    (runPipeline false [collideModule]).pairs.length = 3 := by
  refine ⟨by decide, by decide, by decide⟩

/-! ## Claim C6, counterexample -/

/-- C6, counterexample: the pipeline produces the skill identifier
`bmad-demo` for a root-level workflow file named exactly `workflow.md`
(the name passes the `workflow`/`.md` filter but has no `workflow-`
prefix to strip, so no final segment is appended), and that identifier
does not start with `bmad-demo-`. -/
theorem c6_counterexample :
    "bmad-demo" ∈ (runPipeline false [rootWorkflowModule]).report.skills ∧
    strStartsWith "bmad-demo" ("bmad-" ++ "demo" ++ "-") = false := by
  refine ⟨by decide, by decide⟩

/-! ## Claim C6, amended theorem -/

/-- What remains of a directory segment after the two structural-prefix
strips of `buildSkillSlug` (main.go:859-860). -/
def segRemnant (p : String) : String :=
  trimPre (trimPre p "workflow-") "bmad-"

theorem slugStep_eq (acc p : String) :
    slugStep acc p =
      if !(segRemnant p == ".") && !(segRemnant p == "") then
        acc ++ "-" ++ segRemnant p
      else acc := rfl

theorem strStartsWith_self (s : String) : strStartsWith s s = true :=
  lstStartsWith_refl s.data

theorem strStartsWith_append_right {s p : String} (t : String)
    (h : strStartsWith s p = true) : strStartsWith (s ++ t) p = true := by
  unfold strStartsWith at *
  rw [str_data_append]
  exact lstStartsWith_append _ h

theorem slugStep_startsWith {pre acc : String} (p : String)
    (h : strStartsWith acc pre = true) :
    strStartsWith (slugStep acc p) pre = true := by
  rw [slugStep_eq]
  split
  · exact strStartsWith_append_right _ (strStartsWith_append_right _ h)
  · exact h

theorem slugStep_noEmptySeg {acc : String} (p : String)
    (ha : noEmptySegB acc = true)
    (hp : segRemnant p = "." ∨ segRemnant p = "" ∨
      noEmptySegB (segRemnant p) = true) :
    noEmptySegB (slugStep acc p) = true := by
  rw [slugStep_eq]
  split
  · rename_i hc
    rcases hp with h | h | h
    · rw [h] at hc; simp at hc
    · rw [h] at hc; simp at hc
    · exact noEmptySegB_append_dash _ _ ha h
  · exact ha

theorem slugStep_drop {p : String} (acc : String)
    (h : segRemnant p = "." ∨ segRemnant p = "") : slugStep acc p = acc := by
  rw [slugStep_eq]
  rcases h with h | h <;> rw [h] <;> rfl

theorem str_append_assoc (a b c : String) : a ++ b ++ c = a ++ (b ++ c) := by
  obtain ⟨x⟩ := a
  obtain ⟨y⟩ := b
  obtain ⟨z⟩ := c
  show String.mk (x ++ y ++ z) = String.mk (x ++ (y ++ z))
  rw [List.append_assoc]

theorem taskSkillSlug_restructure (module fname : String) :
    taskSkillSlug module fname =
      ("bmad-" ++ module) ++ "-" ++ "task" ++ "-" ++ trimSuf fname ".md" := by
  unfold taskSkillSlug
  rw [str_append_assoc (("bmad-" ++ module) ++ "-") "task" "-",
      str_append_assoc ("bmad-" ++ module) "-" ("task" ++ "-")]
  rw [show ("-" : String) ++ ("task" ++ "-") = "-task-" from by decide]

theorem lstStartsWith_decomp : ∀ (s p : List Char), lstStartsWith s p = true →
    s = p ++ s.drop p.length := by
  intro s p
  induction p generalizing s with
  | nil => intro _; simp
  | cons b pt ih =>
    cases s with
    | nil => intro h; cases h
    | cons a st =>
      intro h
      simp only [lstStartsWith, Bool.and_eq_true, beq_iff_eq] at h
      obtain ⟨h1, h2⟩ := h
      subst h1
      simp only [List.cons_append, List.length_cons, List.drop_succ_cons]
      exact congrArg (List.cons a) (ih st h2)

theorem noEmptySegB_of_dash_decomp (x y : List Char) (s : String)
    (h : s.data = x ++ '-' :: y) (hs : noEmptySegB s = true) :
    noEmptySegB ⟨y⟩ = true := by
  unfold noEmptySegB at *
  rw [h, splitCh_append, List.all_append, Bool.and_eq_true] at hs
  exact hs.2

theorem wfShortName_noEmptySeg (module : String) (w : WorkflowFile)
    (hs : noEmptySegB (wfSkillSlug module w) = true) :
    noEmptySegB (wfShortName module w) = true := by
  unfold wfShortName trimPre lstTrimPre
  split
  · rename_i h
    have hdec := lstStartsWith_decomp _ _ h
    rw [show ("bmad-" ++ module ++ "-" : String).data =
          ("bmad-" ++ module).data ++ ['-'] from by rw [str_data_append],
        List.append_assoc, List.singleton_append] at hdec
    exact noEmptySegB_of_dash_decomp _ _ _ hdec hs
  · exact hs

/-- C6, amended. Prefix property: every derived persona agent
identifier, Phase-4 shortcut agent identifier, and task skill
identifier starts with `bmad-<module>-` unconditionally, and every
workflow skill identifier starts with `bmad-<module>` (for the skill
slug the trailing separator and a further segment appear only when
some directory segment survives stripping or the file name has the
form `workflow-<stem>.md`; a root-level file named exactly
`workflow.md` yields the bare `bmad-<module>`, which is the
counterexample to the claim as stated). Prompt identifiers: the
persona and shortcut prompt documents are emitted under exactly their
agent's identifier, so they inherit its prefix. No-empty-segment
property: each identifier contains no empty dash-segment provided the
module name and the source-derived stems/segments entering it are
themselves free of empty dash-segments. Dropping property: a directory
segment that is empty, `"."`, or becomes empty after structural-prefix
stripping contributes nothing to the skill slug. -/
theorem c6_amended_identifier_wellformed :
    (∀ module dirParts name,
      strStartsWith (buildSkillSlug module dirParts name) ("bmad-" ++ module) = true) ∧
    (∀ module dirParts name,
      noEmptySegB module = true →
      (∀ p ∈ dirParts, segRemnant p = "." ∨ segRemnant p = "" ∨
        noEmptySegB (segRemnant p) = true) →
      (strStartsWith name "workflow-" = true →
        noEmptySegB (trimSuf (trimPre name "workflow-") ".md") = true) →
      noEmptySegB (buildSkillSlug module dirParts name) = true) ∧
    (∀ module parts1 parts2 p name,
      segRemnant p = "." ∨ segRemnant p = "" →
      buildSkillSlug module (parts1 ++ p :: parts2) name =
        buildSkillSlug module (parts1 ++ parts2) name) ∧
    (∀ module fname,
      strStartsWith (personaSlug module fname) ("bmad-" ++ module ++ "-") = true) ∧
    (∀ module w,
      strStartsWith (wfAgentSlug module w) ("bmad-" ++ module ++ "-") = true) ∧
    (∀ module fname,
      strStartsWith (taskSkillSlug module fname) ("bmad-" ++ module ++ "-") = true) ∧
    (∀ dry module ps f, strEndsWith f.1 ".xml" = true →
      (phase1Item dry module ps f).pairs = ps.pairs ++
        [(personaSlug module f.1, Artifact.agent
            (buildAgentTOML (personaSlug module f.1) module
              (extractAgentMeta (trimSuf f.1 ".xml") f.2)
              (safetyForAgent (trimSuf f.1 ".xml")))),
         (personaSlug module f.1, Artifact.prompt
            (PromptDoc.persona module (trimSuf f.1 ".xml")
              (extractAgentMeta (trimSuf f.1 ".xml") f.2) f.2))]) ∧
    (∀ dry module ps w, wfFilter w = true →
      lookupS (wfAgentSlug module w) ps.store.agents = none →
      (phase4Item dry module ps w).pairs = ps.pairs ++
        [(wfAgentSlug module w, Artifact.agent
            (workflowAgentRecord module (wfShortName module w)
              (wfAgentSlug module w) (wfSkillSlug module w))),
         (wfAgentSlug module w, Artifact.prompt
            (PromptDoc.shortcut (toTitle (wfShortName module w))
              (wfSkillSlug module w)))]) ∧
    (∀ module fname, noEmptySegB module = true →
      noEmptySegB (trimSuf fname ".xml") = true →
      noEmptySegB (personaSlug module fname) = true) ∧
    (∀ module fname, noEmptySegB module = true →
      noEmptySegB (trimSuf fname ".md") = true →
      noEmptySegB (taskSkillSlug module fname) = true) ∧
    (∀ module w, noEmptySegB module = true →
      noEmptySegB (wfSkillSlug module w) = true →
      noEmptySegB (wfAgentSlug module w) = true) := by
  refine ⟨?_, ?_, ?_, ?_, ?_, ?_, ?_, ?_, ?_, ?_, ?_⟩
  · intro module dirParts name
    unfold buildSkillSlug
    have hfold : strStartsWith (dirParts.foldl slugStep ("bmad-" ++ module))
        ("bmad-" ++ module) = true :=
      foldl_inv (I := fun s => strStartsWith s ("bmad-" ++ module) = true)
        (fun s a hs => slugStep_startsWith a hs) dirParts _
        (strStartsWith_self _)
    split
    · exact strStartsWith_append_right _ (strStartsWith_append_right _ hfold)
    · exact hfold
  · intro module dirParts name hm hp hn
    unfold buildSkillSlug
    have hfold : noEmptySegB (dirParts.foldl slugStep ("bmad-" ++ module)) = true :=
      foldl_inv_mem (I := fun s => noEmptySegB s = true) dirParts
        (fun s a ha hs => slugStep_noEmptySeg a hs (hp a ha)) _
        (noEmptySegB_bmad module hm)
    split
    · rename_i hw
      exact noEmptySegB_append_dash _ _ hfold (hn hw)
    · exact hfold
  · intro module parts1 parts2 p name h
    unfold buildSkillSlug
    rw [List.foldl_append, List.foldl_append, List.foldl_cons, slugStep_drop _ h]
  · intro module fname
    exact strStartsWith_append_right _ (strStartsWith_self ("bmad-" ++ module ++ "-"))
  · intro module w
    exact strStartsWith_append_right _ (strStartsWith_self ("bmad-" ++ module ++ "-"))
  · intro module fname
    rw [taskSkillSlug_restructure]
    exact strStartsWith_append_right _ (strStartsWith_append_right _
      (strStartsWith_append_right _ (strStartsWith_self ("bmad-" ++ module ++ "-"))))
  · intro dry module ps f h
    unfold phase1Item
    rw [h]
    rfl
  · intro dry module ps w hf hl
    unfold phase4Item
    rw [hf]
    simp only [hl]
    rfl
  · intro module fname hm hq
    exact noEmptySegB_append_dash _ _ (noEmptySegB_bmad module hm) hq
  · intro module fname hm hq
    rw [taskSkillSlug_restructure]
    exact noEmptySegB_append_dash _ _
      (noEmptySegB_append_dash _ _ (noEmptySegB_bmad module hm) (by decide)) hq
  · intro module w hm hs
    exact noEmptySegB_append_dash _ _ (noEmptySegB_bmad module hm)
      (wfShortName_noEmptySeg module w hs)

/-- C6, witness for the amended theorem at concrete inputs: a nested
segment plus a `"."` segment that contributes nothing, a
`workflow-`-prefixed file name, a persona file, a task file, and a
Phase-4 shortcut item run from the empty state. -/
theorem c6_witness :
    strStartsWith (buildSkillSlug "demo" ["planning", "."] "workflow-create-spec.md")
        ("bmad-" ++ "demo") = true ∧
    noEmptySegB (buildSkillSlug "demo" ["planning", "."] "workflow-create-spec.md") = true ∧
    buildSkillSlug "demo" (["planning"] ++ "." :: []) "workflow-create-spec.md" =
      buildSkillSlug "demo" (["planning"] ++ []) "workflow-create-spec.md" ∧
    strStartsWith (personaSlug "demo" "analyst.xml") ("bmad-" ++ "demo" ++ "-") = true ∧
    strStartsWith (wfAgentSlug "demo" ⟨["planning"], "workflow-create-spec.md", "b"⟩)
        ("bmad-" ++ "demo" ++ "-") = true ∧
    strStartsWith (taskSkillSlug "demo" "checklist.md") ("bmad-" ++ "demo" ++ "-") = true ∧
    (phase1Item false "demo" (initPS emptyStore emptyReport) ("a.xml", "")).pairs =
      (initPS emptyStore emptyReport).pairs ++
        [(personaSlug "demo" "a.xml", Artifact.agent
            (buildAgentTOML (personaSlug "demo" "a.xml") "demo"
              (extractAgentMeta (trimSuf "a.xml" ".xml") "")
              (safetyForAgent (trimSuf "a.xml" ".xml")))),
         (personaSlug "demo" "a.xml", Artifact.prompt
            (PromptDoc.persona "demo" (trimSuf "a.xml" ".xml")
              (extractAgentMeta (trimSuf "a.xml" ".xml") "") ""))] ∧
    (phase4Item false "m" (initPS emptyStore emptyReport)
        ⟨[], "workflow-x.md", "wf"⟩).pairs =
      (initPS emptyStore emptyReport).pairs ++
        [(wfAgentSlug "m" ⟨[], "workflow-x.md", "wf"⟩, Artifact.agent
            (workflowAgentRecord "m" (wfShortName "m" ⟨[], "workflow-x.md", "wf"⟩)
              (wfAgentSlug "m" ⟨[], "workflow-x.md", "wf"⟩)
              (wfSkillSlug "m" ⟨[], "workflow-x.md", "wf"⟩))),
         (wfAgentSlug "m" ⟨[], "workflow-x.md", "wf"⟩, Artifact.prompt
            (PromptDoc.shortcut (toTitle (wfShortName "m" ⟨[], "workflow-x.md", "wf"⟩))
              (wfSkillSlug "m" ⟨[], "workflow-x.md", "wf"⟩)))] ∧
    noEmptySegB (personaSlug "demo" "analyst.xml") = true ∧
    noEmptySegB (taskSkillSlug "demo" "checklist.md") = true ∧
    noEmptySegB (wfAgentSlug "demo" ⟨["planning"], "workflow-create-spec.md", "b"⟩) = true :=
  ⟨c6_amended_identifier_wellformed.1 "demo" ["planning", "."] "workflow-create-spec.md",
   c6_amended_identifier_wellformed.2.1 "demo" ["planning", "."] "workflow-create-spec.md"
     (by decide) (by decide) (fun _ => by decide),
   c6_amended_identifier_wellformed.2.2.1 "demo" ["planning"] [] "." "workflow-create-spec.md"
     (Or.inl (by decide)),
   c6_amended_identifier_wellformed.2.2.2.1 "demo" "analyst.xml",
   c6_amended_identifier_wellformed.2.2.2.2.1 "demo" ⟨["planning"], "workflow-create-spec.md", "b"⟩,
   c6_amended_identifier_wellformed.2.2.2.2.2.1 "demo" "checklist.md",
   c6_amended_identifier_wellformed.2.2.2.2.2.2.1 false "demo"
     (initPS emptyStore emptyReport) ("a.xml", "") (by decide),
   c6_amended_identifier_wellformed.2.2.2.2.2.2.2.1 false "m"
     (initPS emptyStore emptyReport) ⟨[], "workflow-x.md", "wf"⟩ (by decide) (by decide),
   c6_amended_identifier_wellformed.2.2.2.2.2.2.2.2.1 "demo" "analyst.xml"
     (by decide) (by decide),
   c6_amended_identifier_wellformed.2.2.2.2.2.2.2.2.2.1 "demo" "checklist.md"
     (by decide) (by decide),
   c6_amended_identifier_wellformed.2.2.2.2.2.2.2.2.2.2 "demo"
     ⟨["planning"], "workflow-create-spec.md", "b"⟩ (by decide) (by decide)⟩

/-! ## Record field lemmas -/

theorem buildAgentTOML_fields (v m : String) (meta : AgentMeta) (safety : String) :
    (buildAgentTOML v m meta safety).autoApprove = (safety == "safe") ∧
    (buildAgentTOML v m meta safety).safety = safety ∧
    (buildAgentTOML v m meta safety).isShortcut = false ∧
    (buildAgentTOML v m meta safety).systemPromptId = v :=
  ⟨rfl, rfl, rfl, rfl⟩

theorem workflowAgentRecord_fields (m sn a sk : String) :
    (workflowAgentRecord m sn a sk).autoApprove = !(workflowSafety sn == "destructive") ∧
    (workflowAgentRecord m sn a sk).safety = workflowSafety sn ∧
    (workflowAgentRecord m sn a sk).isShortcut = true ∧
    (workflowAgentRecord m sn a sk).systemPromptId = a :=
  ⟨rfl, rfl, rfl, rfl⟩

/-! ## Claim C1, amended theorem: invariant over rendered pairs -/

/-- The corrected auto-approve rule for one rendered pair. -/
def autoApproveOk (a : String × Artifact) : Prop :=
  ∀ r, a.2 = Artifact.agent r →
    (r.isShortcut = false → (r.autoApprove = true ↔ r.safety = "safe")) ∧
    (r.isShortcut = true → (r.autoApprove = true ↔ r.safety = "neutral"))

def pairsOk (ps : PState) : Prop := ∀ a ∈ ps.pairs, autoApproveOk a

theorem buildAgentTOML_autoOk (k v m : String) (meta : AgentMeta) (safety : String) :
    autoApproveOk (k, Artifact.agent (buildAgentTOML v m meta safety)) := by
  intro r hr
  injection hr with h
  subst h
  constructor
  · intro _
    rw [(buildAgentTOML_fields v m meta safety).1,
      (buildAgentTOML_fields v m meta safety).2.1]
    exact beq_iff_eq
  · intro h
    rw [(buildAgentTOML_fields v m meta safety).2.2.1] at h
    cases h

theorem workflowAgentRecord_autoOk (k m sn a sk : String) :
    autoApproveOk (k, Artifact.agent (workflowAgentRecord m sn a sk)) := by
  intro r hr
  injection hr with h
  subst h
  constructor
  · intro hf
    rw [(workflowAgentRecord_fields m sn a sk).2.2.1] at hf
    cases hf
  · intro _
    rw [(workflowAgentRecord_fields m sn a sk).1,
      (workflowAgentRecord_fields m sn a sk).2.1]
    rcases workflowSafety_range sn with h | h <;> rw [h] <;> decide

theorem promptPair_autoOk (k : String) (pd : PromptDoc) :
    autoApproveOk (k, Artifact.prompt pd) := by
  intro r hr
  cases hr

theorem skillPair_autoOk (k : String) (sd : SkillDoc) :
    autoApproveOk (k, Artifact.skill sd) := by
  intro r hr
  cases hr

theorem phase1Item_pairsOk (dry : Bool) (m : String) (ps : PState)
    (f : String × String) (h : pairsOk ps) : pairsOk (phase1Item dry m ps f) := by
  unfold phase1Item
  split
  · exact h
  · intro a ha
    simp only [List.mem_append, List.mem_cons, List.not_mem_nil, or_false] at ha
    rcases ha with ha | ha | ha
    · exact h a ha
    · rw [ha]; exact buildAgentTOML_autoOk _ _ _ _ _
    · rw [ha]; exact promptPair_autoOk _ _

theorem phase2Item_pairsOk (dry : Bool) (m : String) (ps : PState)
    (w : WorkflowFile) (h : pairsOk ps) : pairsOk (phase2Item dry m ps w) := by
  unfold phase2Item
  split
  · exact h
  · intro a ha
    simp only [List.mem_append, List.mem_cons, List.not_mem_nil, or_false] at ha
    rcases ha with ha | ha
    · exact h a ha
    · rw [ha]; exact skillPair_autoOk _ _

theorem phase3Item_pairsOk (dry : Bool) (m : String) (ps : PState)
    (f : String × String) (h : pairsOk ps) : pairsOk (phase3Item dry m ps f) := by
  unfold phase3Item
  split
  · exact h
  · intro a ha
    simp only [List.mem_append, List.mem_cons, List.not_mem_nil, or_false] at ha
    rcases ha with ha | ha
    · exact h a ha
    · rw [ha]; exact skillPair_autoOk _ _

theorem phase4Item_pairsOk (dry : Bool) (m : String) (ps : PState)
    (w : WorkflowFile) (h : pairsOk ps) : pairsOk (phase4Item dry m ps w) := by
  unfold phase4Item
  split
  · exact h
  · cases hl : lookupS (wfAgentSlug m w) ps.store.agents with
    | some v => simp only [hl]; exact h
    | none =>
      simp only [hl]
      intro a ha
      simp only [List.mem_append, List.mem_cons, List.not_mem_nil, or_false] at ha
      rcases ha with ha | ha | ha
      · exact h a ha
      · rw [ha]; exact workflowAgentRecord_autoOk _ _ _ _ _
      · rw [ha]; exact promptPair_autoOk _ _

theorem phase1Mod_pairsOk (dry : Bool) (ps : PState) (m : Module)
    (h : pairsOk ps) : pairsOk (phase1Mod dry ps m) := by
  unfold phase1Mod
  split
  · exact h
  · exact foldl_inv (I := pairsOk) (fun s a hs => phase1Item_pairsOk dry m.name s a hs) _ _ h

theorem phase2Mod_pairsOk (dry : Bool) (ps : PState) (m : Module)
    (h : pairsOk ps) : pairsOk (phase2Mod dry ps m) := by
  unfold phase2Mod
  split
  · exact h
  · exact foldl_inv (I := pairsOk) (fun s a hs => phase2Item_pairsOk dry m.name s a hs) _ _ h

theorem phase3Mod_pairsOk (dry : Bool) (ps : PState) (m : Module)
    (h : pairsOk ps) : pairsOk (phase3Mod dry ps m) := by
  unfold phase3Mod
  exact foldl_inv (I := pairsOk) (fun s a hs => phase3Item_pairsOk dry m.name s a hs) _ _ h

theorem phase4Mod_pairsOk (dry : Bool) (ps : PState) (m : Module)
    (h : pairsOk ps) : pairsOk (phase4Mod dry ps m) := by
  unfold phase4Mod
  split
  · exact h
  · exact foldl_inv (I := pairsOk) (fun s a hs => phase4Item_pairsOk dry m.name s a hs) _ _ h

theorem phase1_pairsOk (dry : Bool) (mods : List Module) (ps : PState)
    (h : pairsOk ps) : pairsOk (phase1 dry mods ps) :=
  foldl_inv (I := pairsOk) (fun s a hs => phase1Mod_pairsOk dry s a hs) _ _ h

theorem phase2_pairsOk (dry : Bool) (mods : List Module) (ps : PState)
    (h : pairsOk ps) : pairsOk (phase2 dry mods ps) :=
  foldl_inv (I := pairsOk) (fun s a hs => phase2Mod_pairsOk dry s a hs) _ _ h

theorem phase3_pairsOk (dry : Bool) (mods : List Module) (ps : PState)
    (h : pairsOk ps) : pairsOk (phase3 dry mods ps) :=
  foldl_inv (I := pairsOk) (fun s a hs => phase3Mod_pairsOk dry s a hs) _ _ h

theorem phase4_pairsOk (dry : Bool) (mods : List Module) (ps : PState)
    (h : pairsOk ps) : pairsOk (phase4 dry mods ps) :=
  foldl_inv (I := pairsOk) (fun s a hs => phase4Mod_pairsOk dry s a hs) _ _ h

theorem phase5Mod_pairs (dry : Bool) (ps : PState) (m : Module) :
    (phase5Mod dry ps m).pairs = ps.pairs := by
  unfold phase5Mod
  split <;> rfl

theorem phase5_pairs (dry : Bool) (mods : List Module) (ps : PState) :
    (phase5 dry mods ps).pairs = ps.pairs :=
  foldl_inv (I := fun x => x.pairs = ps.pairs)
    (fun s a hs => by
      show (phase5Mod dry s a).pairs = ps.pairs
      rw [phase5Mod_pairs]
      exact hs) mods ps rfl

theorem phase6_pairs (dry : Bool) (ps : PState) : (phase6 dry ps).pairs = ps.pairs := by
  unfold phase6
  split <;> rfl

theorem phase7_pairs (dry : Bool) (ps : PState) : (phase7 dry ps).pairs = ps.pairs := by
  unfold phase7
  split <;> rfl

/-- C1, amended: for every agent record the pipeline renders, in either
mode, a persona record (Phase 1) has `auto_approve = true` iff its tier
is `safe`, while a workflow shortcut record (Phase 4) has
`auto_approve = true` iff its tier is `neutral` (equivalently, not
`destructive`, the only other tier the workflow heuristic produces). -/
theorem c1_amended_auto_approve (dry : Bool) (mods : List Module) (s : String)
    (r : AgentRecord)
    (h : (s, Artifact.agent r) ∈ (runPipeline dry mods).pairs) :
    (r.isShortcut = false → (r.autoApprove = true ↔ r.safety = "safe")) ∧
    (r.isShortcut = true → (r.autoApprove = true ↔ r.safety = "neutral")) := by
  have h123 : pairsOk (runPhases123From dry emptyStore emptyReport mods) := by
    unfold runPhases123From
    apply phase3_pairsOk
    apply phase2_pairsOk
    apply phase1_pairsOk
    intro a ha
    cases ha
  have h4 := phase4_pairsOk dry mods _ h123
  have hp : (runPipeline dry mods).pairs =
      (phase4 dry mods (runPhases123From dry emptyStore emptyReport mods)).pairs := by
    unfold runPipeline runPipelineFrom
    rw [phase7_pairs, phase6_pairs, phase5_pairs]
  rw [hp] at h
  exact h4 _ h r rfl

/-- C1, witness: the amended theorem applied to the concrete shortcut
record rendered for `planning/workflow-create-spec.md`. -/
theorem c1_witness :
    (workflowAgentRecord "demo" "planning-create-spec"
      "bmad-demo-planning-create-spec" "bmad-demo-planning-create-spec").isShortcut = true ∧
    ((workflowAgentRecord "demo" "planning-create-spec"
        "bmad-demo-planning-create-spec" "bmad-demo-planning-create-spec").autoApprove = true ↔
      (workflowAgentRecord "demo" "planning-create-spec"
        "bmad-demo-planning-create-spec" "bmad-demo-planning-create-spec").safety = "neutral") :=
  ⟨by decide,
   (c1_amended_auto_approve false [planningModule] "bmad-demo-planning-create-spec"
     (workflowAgentRecord "demo" "planning-create-spec" "bmad-demo-planning-create-spec"
       "bmad-demo-planning-create-spec")
     (by decide)).2 (by decide)⟩

/-! ## Claim C5: exit code and absence of early aborts

The phases only ever append to the report and never read it, so the
content collected so far (errors included) cannot change what any later
phase computes; the exit decision is taken once, from the fully
assembled report. `repAppends F` states this for a pipeline stage `F`. -/

def Report.app (r s : Report) : Report :=
  ⟨r.agents ++ s.agents, r.prompts ++ s.prompts, r.skills ++ s.skills,
   r.warnings ++ s.warnings, r.errors ++ s.errors⟩

def mergeRep (rep : Report) (ps : PState) : PState :=
  { ps with report := Report.app rep ps.report }

theorem report_app_assoc (r s t : Report) :
    Report.app (Report.app r s) t = Report.app r (Report.app s t) := by
  simp [Report.app]

def repAppends (F : PState → PState) : Prop :=
  ∀ st pr rep, F ⟨st, pr, rep⟩ = mergeRep rep (F ⟨st, pr, emptyReport⟩)

theorem repAppends_comp {F G : PState → PState} (hF : repAppends F)
    (hG : repAppends G) : repAppends (fun ps => G (F ps)) := by
  intro st pr rep
  show G (F ⟨st, pr, rep⟩) = mergeRep rep (G (F ⟨st, pr, emptyReport⟩))
  rw [hF]
  rcases hFe : F ⟨st, pr, emptyReport⟩ with ⟨st1, pr1, rep1⟩
  show G ⟨st1, pr1, Report.app rep rep1⟩ = mergeRep rep (G ⟨st1, pr1, rep1⟩)
  rw [hG st1 pr1 (Report.app rep rep1), hG st1 pr1 rep1]
  rcases G ⟨st1, pr1, emptyReport⟩ with ⟨st2, pr2, rep2⟩
  show (⟨st2, pr2, Report.app (Report.app rep rep1) rep2⟩ : PState) =
    ⟨st2, pr2, Report.app rep (Report.app rep1 rep2)⟩
  rw [report_app_assoc]

theorem foldl_repApp {α : Type} (f : PState → α → PState)
    (hf : ∀ a, repAppends (fun ps => f ps a)) :
    ∀ (l : List α), repAppends (fun ps => l.foldl f ps) := by
  intro l
  induction l with
  | nil =>
    intro st pr rep
    show (⟨st, pr, rep⟩ : PState) = mergeRep rep ⟨st, pr, emptyReport⟩
    simp [mergeRep, Report.app, emptyReport]
  | cons a t ih =>
    intro st pr rep
    exact repAppends_comp (hf a) ih st pr rep

theorem phase1Item_repApp (dry : Bool) (m : String) (f : String × String) :
    repAppends (fun ps => phase1Item dry m ps f) := by
  intro st pr rep
  simp only [phase1Item]
  split
  · simp [mergeRep, Report.app, emptyReport]
  · simp [mergeRep, Report.app, emptyReport]

theorem phase2Item_repApp (dry : Bool) (m : String) (w : WorkflowFile) :
    repAppends (fun ps => phase2Item dry m ps w) := by
  intro st pr rep
  simp only [phase2Item]
  split
  · simp [mergeRep, Report.app, emptyReport]
  · simp [mergeRep, Report.app, emptyReport]

theorem phase3Item_repApp (dry : Bool) (m : String) (f : String × String) :
    repAppends (fun ps => phase3Item dry m ps f) := by
  intro st pr rep
  simp only [phase3Item]
  split
  · simp [mergeRep, Report.app, emptyReport]
  · simp [mergeRep, Report.app, emptyReport]

theorem phase4Item_repApp (dry : Bool) (m : String) (w : WorkflowFile) :
    repAppends (fun ps => phase4Item dry m ps w) := by
  intro st pr rep
  simp only [phase4Item]
  split
  · simp [mergeRep, Report.app, emptyReport]
  · cases hl : lookupS (wfAgentSlug m w) st.agents with
    | some v => simp only [hl]; simp [mergeRep, Report.app, emptyReport]
    | none => simp only [hl]; simp [mergeRep, Report.app, emptyReport]

theorem phase1Mod_repApp (dry : Bool) (m : Module) :
    repAppends (fun ps => phase1Mod dry ps m) := by
  intro st pr rep
  simp only [phase1Mod]
  split
  · simp [mergeRep, Report.app, emptyReport]
  · exact foldl_repApp _ (fun f => phase1Item_repApp dry m.name f) _ st pr rep

theorem phase2Mod_repApp (dry : Bool) (m : Module) :
    repAppends (fun ps => phase2Mod dry ps m) := by
  intro st pr rep
  simp only [phase2Mod]
  split
  · simp [mergeRep, Report.app, emptyReport]
  · exact foldl_repApp _ (fun w => phase2Item_repApp dry m.name w) _ st pr rep

theorem phase3Mod_repApp (dry : Bool) (m : Module) :
    repAppends (fun ps => phase3Mod dry ps m) := by
  intro st pr rep
  simp only [phase3Mod]
  exact foldl_repApp _ (fun f => phase3Item_repApp dry m.name f) _ st pr rep

theorem phase4Mod_repApp (dry : Bool) (m : Module) :
    repAppends (fun ps => phase4Mod dry ps m) := by
  intro st pr rep
  simp only [phase4Mod]
  split
  · simp [mergeRep, Report.app, emptyReport]
  · exact foldl_repApp _ (fun w => phase4Item_repApp dry m.name w) _ st pr rep

theorem phase5Mod_repApp (dry : Bool) (m : Module) :
    repAppends (fun ps => phase5Mod dry ps m) := by
  intro st pr rep
  simp only [phase5Mod]
  split
  · simp [mergeRep, Report.app, emptyReport]
  · simp [mergeRep, Report.app, emptyReport]

theorem phase6_repApp (dry : Bool) : repAppends (phase6 dry) := by
  intro st pr rep
  simp only [phase6]
  split
  · simp [mergeRep, Report.app, emptyReport]
  · simp [mergeRep, Report.app, emptyReport]

theorem phase7_repApp (dry : Bool) : repAppends (phase7 dry) := by
  intro st pr rep
  simp only [phase7]
  split
  · simp [mergeRep, Report.app, emptyReport]
  · simp [mergeRep, Report.app, emptyReport]

/-- C5: the process exits with code 0 iff the assembled report's error
list is empty; the exit decision never reads the warning list; and the
report collected at any point never influences what later phases
compute — the run is append-only in the report, so a collected error
never aborts the run early and every phase executes before the exit is
taken. -/
theorem c5_exit_code_contract :
    (∀ r : Report, exitCode r = 0 ↔ r.errors = []) ∧
    (∀ ag pr sk w w' e, exitCode ⟨ag, pr, sk, w, e⟩ = exitCode ⟨ag, pr, sk, w', e⟩) ∧
    (∀ dry st0 rep0 mods,
      runPipelineFrom dry st0 rep0 mods =
        mergeRep rep0 (runPipelineFrom dry st0 emptyReport mods)) := by
  refine ⟨?_, ?_, ?_⟩
  · intro r
    unfold exitCode
    split
    · rename_i he; simp [he]
    · rename_i he; simp [he]
  · intro ag pr sk w w' e
    rfl
  · intro dry st0 rep0 mods
    have h : repAppends (fun ps =>
        phase7 dry (phase6 dry (phase5 dry mods (phase4 dry mods
          (phase3 dry mods (phase2 dry mods (phase1 dry mods ps))))))) := by
      refine repAppends_comp (repAppends_comp (repAppends_comp (repAppends_comp
        (repAppends_comp (repAppends_comp ?_ ?_) ?_) ?_) ?_) ?_) ?_
      · exact foldl_repApp _ (fun m => phase1Mod_repApp dry m) mods
      · exact foldl_repApp _ (fun m => phase2Mod_repApp dry m) mods
      · exact foldl_repApp _ (fun m => phase3Mod_repApp dry m) mods
      · exact foldl_repApp _ (fun m => phase4Mod_repApp dry m) mods
      · exact foldl_repApp _ (fun m => phase5Mod_repApp dry m) mods
      · exact phase6_repApp dry
      · exact phase7_repApp dry
    exact h st0 [] rep0

/-! ## Per-phase preservation lemmas (for referential closure)

Phases 1-6 never append to the error list; phases 2, 3, 5 and 6 never
touch the agent or prompt maps; phase 4 never touches the skill
containers. -/

theorem phase1Item_errors (dry : Bool) (m : String) (ps : PState) (f : String × String) :
    (phase1Item dry m ps f).report.errors = ps.report.errors := by
  unfold phase1Item; split <;> rfl

theorem phase2Item_errors (dry : Bool) (m : String) (ps : PState) (w : WorkflowFile) :
    (phase2Item dry m ps w).report.errors = ps.report.errors := by
  unfold phase2Item; split <;> rfl

theorem phase3Item_errors (dry : Bool) (m : String) (ps : PState) (f : String × String) :
    (phase3Item dry m ps f).report.errors = ps.report.errors := by
  unfold phase3Item; split <;> rfl

theorem phase4Item_errors (dry : Bool) (m : String) (ps : PState) (w : WorkflowFile) :
    (phase4Item dry m ps w).report.errors = ps.report.errors := by
  unfold phase4Item
  split
  · rfl
  · cases hl : lookupS (wfAgentSlug m w) ps.store.agents with
    | some v => simp only [hl]
    | none => simp only [hl]

theorem phase2Item_agents (dry : Bool) (m : String) (ps : PState) (w : WorkflowFile) :
    (phase2Item dry m ps w).store.agents = ps.store.agents := by
  unfold phase2Item
  split
  · rfl
  · split <;> rfl

theorem phase2Item_prompts (dry : Bool) (m : String) (ps : PState) (w : WorkflowFile) :
    (phase2Item dry m ps w).store.prompts = ps.store.prompts := by
  unfold phase2Item
  split
  · rfl
  · split <;> rfl

theorem phase3Item_agents (dry : Bool) (m : String) (ps : PState) (f : String × String) :
    (phase3Item dry m ps f).store.agents = ps.store.agents := by
  unfold phase3Item
  split
  · rfl
  · split <;> rfl

theorem phase3Item_prompts (dry : Bool) (m : String) (ps : PState) (f : String × String) :
    (phase3Item dry m ps f).store.prompts = ps.store.prompts := by
  unfold phase3Item
  split
  · rfl
  · split <;> rfl

theorem phase4Item_skillDirs (dry : Bool) (m : String) (ps : PState) (w : WorkflowFile) :
    (phase4Item dry m ps w).store.skillDirs = ps.store.skillDirs := by
  unfold phase4Item
  split
  · rfl
  · cases hl : lookupS (wfAgentSlug m w) ps.store.agents with
    | some v => simp only [hl]
    | none => simp only [hl]; split <;> rfl

theorem phase5Mod_agents (dry : Bool) (ps : PState) (m : Module) :
    (phase5Mod dry ps m).store.agents = ps.store.agents := by
  unfold phase5Mod; split <;> rfl

theorem phase5Mod_prompts (dry : Bool) (ps : PState) (m : Module) :
    (phase5Mod dry ps m).store.prompts = ps.store.prompts := by
  unfold phase5Mod; split <;> rfl

theorem phase5Mod_errors (dry : Bool) (ps : PState) (m : Module) :
    (phase5Mod dry ps m).report.errors = ps.report.errors := by
  unfold phase5Mod; split <;> rfl

theorem phase6_store_fields (dry : Bool) (ps : PState) :
    (phase6 dry ps).store.agents = ps.store.agents ∧
    (phase6 dry ps).store.prompts = ps.store.prompts ∧
    (phase6 dry ps).store.skillDirs = ps.store.skillDirs ∧
    (phase6 dry ps).report.errors = ps.report.errors := by
  unfold phase6
  split <;> exact ⟨rfl, rfl, rfl, rfl⟩

/-! ## Store invariants for referential closure (claim C9) -/

/-- A skill container with the given slug exists in the store. -/
def dirHas (st : Store) (k : String) : Prop :=
  (lookupS k st.skillDirs).isSome = true

/-- The referential-closure invariant of the store: every agent record's
`system_prompt_id` is its own key, its safety tier is accepted, its
prompt exists, and — when the record is a workflow shortcut — the skill
slug embedded in that prompt resolves to a skill container. -/
def storeOk (st : Store) : Prop :=
  ∀ p ∈ st.agents,
    p.2.systemPromptId = p.1 ∧
    validSafetyB p.2.safety = true ∧
    ∃ pd, lookupS p.1 st.prompts = some pd ∧
      (p.2.isShortcut = true → ∃ k, pd.skillRef = some k ∧ dirHas st k)

/-- Before Phase 4 runs, every agent record is a persona record. -/
def storePersonaOk (st : Store) : Prop :=
  storeOk st ∧ ∀ p ∈ st.agents, p.2.isShortcut = false

theorem strStartsWith_bmad_ne {s : String} (h : strStartsWith s "bmad-" = true) :
    (s == "") = false := by
  rw [beq_eq_false_iff_ne]
  intro he
  subst he
  exact absurd h (by decide)

/-- Writing a fresh persona agent record together with its prompt under
the same key preserves the pre-Phase-4 invariant. -/
theorem storePersonaOk_write (st : Store) (v : String) (r : AgentRecord)
    (pd : PromptDoc) (hr : r.systemPromptId = v)
    (hrs : validSafetyB r.safety = true) (hrc : r.isShortcut = false)
    (h : storePersonaOk st) :
    storePersonaOk { st with agents := upsert v r st.agents,
                             prompts := upsert v pd st.prompts } := by
  constructor
  · intro p hp
    rcases mem_upsert hp with hpe | hpo
    · subst hpe
      refine ⟨hr, hrs, pd, ?_, ?_⟩
      · show lookupS v (upsert v pd st.prompts) = some pd
        rw [lookup_upsert]
        simp
      · intro hsc
        rw [hrc] at hsc
        cases hsc
    · obtain ⟨hpid, hsafe, pd₀, hpd₀, _⟩ := h.1 p hpo
      have hshort := h.2 p hpo
      refine ⟨hpid, hsafe, ?_⟩
      by_cases hv : p.1 = v
      · refine ⟨pd, ?_, ?_⟩
        · show lookupS p.1 (upsert v pd st.prompts) = some pd
          rw [lookup_upsert, if_pos hv]
        · intro hsc
          rw [hshort] at hsc
          cases hsc
      · refine ⟨pd₀, ?_, ?_⟩
        · show lookupS p.1 (upsert v pd st.prompts) = some pd₀
          rw [lookup_upsert, if_neg hv]
          exact hpd₀
        · intro hsc
          rw [hshort] at hsc
          cases hsc
  · intro p hp
    rcases mem_upsert hp with hpe | hpo
    · subst hpe
      exact hrc
    · exact h.2 p hpo

/-- The pre-Phase-4 invariant only depends on the agent and prompt maps. -/
theorem storePersonaOk_of_same_ap {st st' : Store} (ha : st'.agents = st.agents)
    (hp : st'.prompts = st.prompts) (h : storePersonaOk st) :
    storePersonaOk st' := by
  constructor
  · intro p hpm
    rw [ha] at hpm
    obtain ⟨h1, h2, pd, h3, _⟩ := h.1 p hpm
    have hs := h.2 p hpm
    refine ⟨h1, h2, pd, by rw [hp]; exact h3, ?_⟩
    intro hsc
    rw [hs] at hsc
    cases hsc
  · intro p hpm
    rw [ha] at hpm
    exact h.2 p hpm

/-- The full invariant is preserved when the agent and prompt maps are
unchanged and skill containers only get added. -/
theorem storeOk_mono {st st' : Store} (ha : st'.agents = st.agents)
    (hp : st'.prompts = st.prompts) (hd : ∀ k, dirHas st k → dirHas st' k)
    (h : storeOk st) : storeOk st' := by
  intro p hpm
  rw [ha] at hpm
  obtain ⟨h1, h2, pd, h3, h4⟩ := h p hpm
  refine ⟨h1, h2, pd, by rw [hp]; exact h3, ?_⟩
  intro hsc
  obtain ⟨k, hk1, hk2⟩ := h4 hsc
  exact ⟨k, hk1, hd k hk2⟩

/-! ## Invariant propagation through phases 1-3 -/

theorem phase1Item_storePOk (dry : Bool) (m : String) (ps : PState)
    (f : String × String) (h : storePersonaOk ps.store) :
    storePersonaOk (phase1Item dry m ps f).store := by
  unfold phase1Item
  split
  · exact h
  · split
    · exact h
    · exact storePersonaOk_write ps.store _ _ _
        (buildAgentTOML_fields _ _ _ _).2.2.2
        (by rw [(buildAgentTOML_fields _ _ _ _).2.1]
            exact validSafetyB_of_range (safetyForAgent_range _))
        (buildAgentTOML_fields _ _ _ _).2.2.1 h

theorem phase1Mod_storePOk (dry : Bool) (ps : PState) (m : Module)
    (h : storePersonaOk ps.store) : storePersonaOk (phase1Mod dry ps m).store := by
  unfold phase1Mod
  split
  · exact h
  · exact foldl_inv (I := fun x => storePersonaOk x.store)
      (fun s a hs => phase1Item_storePOk dry m.name s a hs) _ _ h

theorem phase1_storePOk (dry : Bool) (mods : List Module) (ps : PState)
    (h : storePersonaOk ps.store) : storePersonaOk (phase1 dry mods ps).store :=
  foldl_inv (I := fun x => storePersonaOk x.store)
    (fun s a hs => phase1Mod_storePOk dry s a hs) mods ps h

theorem phase2Item_storePOk (dry : Bool) (m : String) (ps : PState)
    (w : WorkflowFile) (h : storePersonaOk ps.store) :
    storePersonaOk (phase2Item dry m ps w).store :=
  storePersonaOk_of_same_ap (phase2Item_agents dry m ps w)
    (phase2Item_prompts dry m ps w) h

theorem phase2Mod_storePOk (dry : Bool) (ps : PState) (m : Module)
    (h : storePersonaOk ps.store) : storePersonaOk (phase2Mod dry ps m).store := by
  unfold phase2Mod
  split
  · exact h
  · exact foldl_inv (I := fun x => storePersonaOk x.store)
      (fun s a hs => phase2Item_storePOk dry m.name s a hs) _ _ h

theorem phase2_storePOk (dry : Bool) (mods : List Module) (ps : PState)
    (h : storePersonaOk ps.store) : storePersonaOk (phase2 dry mods ps).store :=
  foldl_inv (I := fun x => storePersonaOk x.store)
    (fun s a hs => phase2Mod_storePOk dry s a hs) mods ps h

theorem phase3Item_storePOk (dry : Bool) (m : String) (ps : PState)
    (f : String × String) (h : storePersonaOk ps.store) :
    storePersonaOk (phase3Item dry m ps f).store :=
  storePersonaOk_of_same_ap (phase3Item_agents dry m ps f)
    (phase3Item_prompts dry m ps f) h

theorem phase3Mod_storePOk (dry : Bool) (ps : PState) (m : Module)
    (h : storePersonaOk ps.store) : storePersonaOk (phase3Mod dry ps m).store := by
  unfold phase3Mod
  exact foldl_inv (I := fun x => storePersonaOk x.store)
    (fun s a hs => phase3Item_storePOk dry m.name s a hs) _ _ h

theorem phase3_storePOk (dry : Bool) (mods : List Module) (ps : PState)
    (h : storePersonaOk ps.store) : storePersonaOk (phase3 dry mods ps).store :=
  foldl_inv (I := fun x => storePersonaOk x.store)
    (fun s a hs => phase3Mod_storePOk dry s a hs) mods ps h

/-! ## Skill containers reached by phase 2 and preserved afterwards -/

theorem phase2Item_dirHas (dry : Bool) (m : String) (ps : PState) (w : WorkflowFile)
    (k : String) (h : dirHas ps.store k) : dirHas (phase2Item dry m ps w).store k := by
  unfold phase2Item dirHas at *
  split
  · exact h
  · split
    · exact h
    · exact lookup_upsert_isSome _ _ h

theorem phase3Item_dirHas (dry : Bool) (m : String) (ps : PState) (f : String × String)
    (k : String) (h : dirHas ps.store k) : dirHas (phase3Item dry m ps f).store k := by
  unfold phase3Item dirHas at *
  split
  · exact h
  · split
    · exact h
    · exact lookup_upsert_isSome _ _ h

theorem phase2Mod_dirHas (dry : Bool) (ps : PState) (m : Module) (k : String)
    (h : dirHas ps.store k) : dirHas (phase2Mod dry ps m).store k := by
  unfold phase2Mod
  split
  · exact h
  · exact foldl_inv (I := fun x => dirHas x.store k)
      (fun s a hs => phase2Item_dirHas dry m.name s a k hs) _ _ h

theorem phase3Mod_dirHas (dry : Bool) (ps : PState) (m : Module) (k : String)
    (h : dirHas ps.store k) : dirHas (phase3Mod dry ps m).store k := by
  unfold phase3Mod
  exact foldl_inv (I := fun x => dirHas x.store k)
    (fun s a hs => phase3Item_dirHas dry m.name s a k hs) _ _ h

theorem phase3_dirHas (dry : Bool) (mods : List Module) (ps : PState) (k : String)
    (h : dirHas ps.store k) : dirHas (phase3 dry mods ps).store k :=
  foldl_inv (I := fun x => dirHas x.store k)
    (fun s a hs => phase3Mod_dirHas dry s a k hs) mods ps h

theorem phase2Item_creates (m : String) (ps : PState) (w : WorkflowFile)
    (hf : wfFilter w = true) :
    dirHas (phase2Item false m ps w).store (wfSkillSlug m w) := by
  unfold phase2Item dirHas
  simp [hf, lookup_upsert]

theorem phase2Mod_reaches (ps : PState) (m : Module) :
    ∀ w ∈ m.workflowFiles.getD [], wfFilter w = true →
      dirHas (phase2Mod false ps m).store (wfSkillSlug m.name w) := by
  intro w hw hf
  cases hwf : m.workflowFiles with
  | none => rw [hwf] at hw; simp at hw
  | some ws =>
    rw [hwf] at hw
    simp only [Option.getD_some] at hw
    unfold phase2Mod
    simp only [hwf]
    exact foldl_reaches
      (P := fun w s => wfFilter w = true → dirHas s.store (wfSkillSlug m.name w))
      (fun s a hf' => phase2Item_creates m.name s a hf')
      (fun s a b hpa hf' => phase2Item_dirHas false m.name s b _ (hpa hf'))
      ws ps w hw hf

theorem phase2_reaches (ps : PState) (mods : List Module) :
    ∀ m ∈ mods, ∀ w ∈ m.workflowFiles.getD [], wfFilter w = true →
      dirHas (phase2 false mods ps).store (wfSkillSlug m.name w) := by
  intro m hm w hw hf
  unfold phase2
  exact foldl_reaches
    (f := fun s a => phase2Mod false s a)
    (P := fun m s => ∀ w ∈ m.workflowFiles.getD [], wfFilter w = true →
      dirHas s.store (wfSkillSlug m.name w))
    (fun s a => phase2Mod_reaches s a)
    (fun s a b hpa w' hw' hf' => phase2Mod_dirHas false s b _ (hpa w' hw' hf'))
    mods ps m hm w hw hf

/-! ## Invariant propagation through phase 4 -/

/-- Writing a fresh shortcut agent record together with its prompt under
the same key preserves the full invariant, provided the referenced
skill container exists. -/
theorem storeOk_write_shortcut (st : Store) (a m sn skillSlug : String)
    (hdir : dirHas st skillSlug) (h : storeOk st) :
    storeOk { st with
      agents := upsert a (workflowAgentRecord m sn a skillSlug) st.agents,
      prompts := upsert a (PromptDoc.shortcut (toTitle sn) skillSlug) st.prompts } := by
  intro p hp
  rcases mem_upsert hp with hpe | hpo
  · subst hpe
    refine ⟨(workflowAgentRecord_fields m sn a skillSlug).2.2.2, ?_, ?_⟩
    · rw [(workflowAgentRecord_fields m sn a skillSlug).2.1]
      apply validSafetyB_of_range
      rcases workflowSafety_range sn with hh | hh
      · right; left; exact hh
      · right; right; exact hh
    · refine ⟨PromptDoc.shortcut (toTitle sn) skillSlug, ?_, ?_⟩
      · show lookupS a (upsert a _ st.prompts) = _
        rw [lookup_upsert]
        simp
      · intro _
        exact ⟨skillSlug, rfl, hdir⟩
  · obtain ⟨hpid, hsafe, pd₀, hpd₀, hsc₀⟩ := h p hpo
    refine ⟨hpid, hsafe, ?_⟩
    by_cases hv : p.1 = a
    · refine ⟨PromptDoc.shortcut (toTitle sn) skillSlug, ?_, ?_⟩
      · show lookupS p.1 (upsert a _ st.prompts) = _
        rw [lookup_upsert, if_pos hv]
      · intro _
        exact ⟨skillSlug, rfl, hdir⟩
    · refine ⟨pd₀, ?_, ?_⟩
      · show lookupS p.1 (upsert a _ st.prompts) = _
        rw [lookup_upsert, if_neg hv]
        exact hpd₀
      · intro hsc
        obtain ⟨k, hk1, hk2⟩ := hsc₀ hsc
        exact ⟨k, hk1, hk2⟩

theorem phase4Item_storeOk (m : String) (ps : PState) (w : WorkflowFile)
    (hdir : wfFilter w = true → dirHas ps.store (wfSkillSlug m w))
    (h : storeOk ps.store) : storeOk (phase4Item false m ps w).store := by
  unfold phase4Item
  split
  · exact h
  · rename_i hnf
    have hf : wfFilter w = true := by
      cases hfc : wfFilter w
      · exact absurd (by rw [hfc]; rfl) hnf
      · rfl
    cases hl : lookupS (wfAgentSlug m w) ps.store.agents with
    | some v => simp only [hl]; exact h
    | none =>
      simp only [hl]
      exact storeOk_write_shortcut ps.store (wfAgentSlug m w) m (wfShortName m w)
        (wfSkillSlug m w) (hdir hf) h

theorem phase4Mod_skillDirs (dry : Bool) (ps : PState) (m : Module) :
    (phase4Mod dry ps m).store.skillDirs = ps.store.skillDirs := by
  unfold phase4Mod
  split
  · rfl
  · exact foldl_inv (f := fun s a => phase4Item dry m.name s a)
      (I := fun x => x.store.skillDirs = ps.store.skillDirs)
      (fun s a hs => by
        show (phase4Item dry m.name s a).store.skillDirs = ps.store.skillDirs
        rw [phase4Item_skillDirs dry m.name s a]
        exact hs) _ _ rfl

theorem phase4Mod_storeOk (ps : PState) (m : Module)
    (hd : ∀ w ∈ m.workflowFiles.getD [], wfFilter w = true →
      dirHas ps.store (wfSkillSlug m.name w))
    (h : storeOk ps.store) : storeOk (phase4Mod false ps m).store := by
  cases hwf : m.workflowFiles with
  | none => unfold phase4Mod; simp only [hwf]; exact h
  | some ws =>
    unfold phase4Mod
    simp only [hwf]
    refine (foldl_inv_mem (f := fun s a => phase4Item false m.name s a)
      (I := fun x => storeOk x.store ∧ x.store.skillDirs = ps.store.skillDirs)
      ws ?_ ps ⟨h, rfl⟩).1
    intro s a ha hs
    refine ⟨?_, ?_⟩
    · apply phase4Item_storeOk m.name s a ?_ hs.1
      intro hf
      unfold dirHas
      rw [hs.2]
      exact hd a (by rw [hwf]; simpa using ha) hf
    · show (phase4Item false m.name s a).store.skillDirs = ps.store.skillDirs
      rw [phase4Item_skillDirs false m.name s a]
      exact hs.2

theorem phase4_storeOk (ps : PState) (mods : List Module)
    (hd : ∀ m ∈ mods, ∀ w ∈ m.workflowFiles.getD [], wfFilter w = true →
      dirHas ps.store (wfSkillSlug m.name w))
    (h : storeOk ps.store) : storeOk (phase4 false mods ps).store := by
  unfold phase4
  refine (foldl_inv_mem (f := fun s a => phase4Mod false s a)
    (I := fun x => storeOk x.store ∧ x.store.skillDirs = ps.store.skillDirs)
    mods ?_ ps ⟨h, rfl⟩).1
  intro s a ha hs
  refine ⟨?_, ?_⟩
  · apply phase4Mod_storeOk s a ?_ hs.1
    intro w hw hf
    unfold dirHas
    rw [hs.2]
    exact hd a ha w hw hf
  · show (phase4Mod false s a).store.skillDirs = ps.store.skillDirs
    rw [phase4Mod_skillDirs false s a]
    exact hs.2

/-! ## Phases 5 and 6 preserve the invariant; errors stay empty -/

theorem phase5Mod_dirHas (dry : Bool) (ps : PState) (m : Module) (k : String)
    (h : dirHas ps.store k) : dirHas (phase5Mod dry ps m).store k := by
  unfold phase5Mod
  split
  · exact h
  · unfold dirHas at h ⊢
    cases hd : m.hasData <;> cases hc : m.hasDocs <;>
      first
        | exact h
        | exact lookup_ensureDir h
        | exact lookup_ensureDir (lookup_ensureDir h)

theorem phase5_dirHas (dry : Bool) (mods : List Module) (ps : PState) (k : String)
    (h : dirHas ps.store k) : dirHas (phase5 dry mods ps).store k :=
  foldl_inv (f := fun s a => phase5Mod dry s a) (I := fun x => dirHas x.store k)
    (fun s a hs => phase5Mod_dirHas dry s a k hs) mods ps h

theorem phase5_agents (dry : Bool) (mods : List Module) (ps : PState) :
    (phase5 dry mods ps).store.agents = ps.store.agents :=
  foldl_inv (f := fun s a => phase5Mod dry s a)
    (I := fun x => x.store.agents = ps.store.agents)
    (fun s a hs => by
      show (phase5Mod dry s a).store.agents = ps.store.agents
      rw [phase5Mod_agents]
      exact hs) mods ps rfl

theorem phase5_prompts (dry : Bool) (mods : List Module) (ps : PState) :
    (phase5 dry mods ps).store.prompts = ps.store.prompts :=
  foldl_inv (f := fun s a => phase5Mod dry s a)
    (I := fun x => x.store.prompts = ps.store.prompts)
    (fun s a hs => by
      show (phase5Mod dry s a).store.prompts = ps.store.prompts
      rw [phase5Mod_prompts]
      exact hs) mods ps rfl

theorem foldl_errors {α : Type} (f : PState → α → PState)
    (hf : ∀ s a, (f s a).report.errors = s.report.errors) (l : List α) (ps : PState) :
    (l.foldl f ps).report.errors = ps.report.errors :=
  foldl_inv (f := f) (I := fun x => x.report.errors = ps.report.errors)
    (fun s a hs => by
      show (f s a).report.errors = ps.report.errors
      rw [hf s a]
      exact hs) l ps rfl

theorem phase1Mod_errors (dry : Bool) (ps : PState) (m : Module) :
    (phase1Mod dry ps m).report.errors = ps.report.errors := by
  unfold phase1Mod
  split
  · rfl
  · exact foldl_errors _ (fun s a => phase1Item_errors dry m.name s a) _ ps

theorem phase2Mod_errors (dry : Bool) (ps : PState) (m : Module) :
    (phase2Mod dry ps m).report.errors = ps.report.errors := by
  unfold phase2Mod
  split
  · rfl
  · exact foldl_errors _ (fun s a => phase2Item_errors dry m.name s a) _ ps

theorem phase3Mod_errors (dry : Bool) (ps : PState) (m : Module) :
    (phase3Mod dry ps m).report.errors = ps.report.errors := by
  unfold phase3Mod
  exact foldl_errors _ (fun s a => phase3Item_errors dry m.name s a) _ ps

theorem phase4Mod_errors (dry : Bool) (ps : PState) (m : Module) :
    (phase4Mod dry ps m).report.errors = ps.report.errors := by
  unfold phase4Mod
  split
  · rfl
  · exact foldl_errors _ (fun s a => phase4Item_errors dry m.name s a) _ ps

theorem phase1_errors (dry : Bool) (mods : List Module) (ps : PState) :
    (phase1 dry mods ps).report.errors = ps.report.errors :=
  foldl_errors _ (fun s a => phase1Mod_errors dry s a) mods ps

theorem phase2_errors (dry : Bool) (mods : List Module) (ps : PState) :
    (phase2 dry mods ps).report.errors = ps.report.errors :=
  foldl_errors _ (fun s a => phase2Mod_errors dry s a) mods ps

theorem phase3_errors (dry : Bool) (mods : List Module) (ps : PState) :
    (phase3 dry mods ps).report.errors = ps.report.errors :=
  foldl_errors _ (fun s a => phase3Mod_errors dry s a) mods ps

theorem phase4_errors (dry : Bool) (mods : List Module) (ps : PState) :
    (phase4 dry mods ps).report.errors = ps.report.errors :=
  foldl_errors _ (fun s a => phase4Mod_errors dry s a) mods ps

theorem phase5_errors (dry : Bool) (mods : List Module) (ps : PState) :
    (phase5 dry mods ps).report.errors = ps.report.errors :=
  foldl_errors _ (fun s a => phase5Mod_errors dry s a) mods ps

/-! ## Claim C9 -/

theorem phase7_store (dry : Bool) (ps : PState) : (phase7 dry ps).store = ps.store := by
  unfold phase7
  split <;> rfl

/-- A persona source file whose leading tag's `title` attribute contains
the validator's `"workflow shortcut"` marker and whose body contains a
``Skill slug: `ghost` `` reference. Both strings survive verbatim into
the rendered artifacts. -/
def spoofModule : Module :=
  ⟨"demo",
   some [("spoof.xml",
     "<agent title=\x22workflow shortcut\x22>Skill slug: `ghost` is cited here</agent>")],
   some [], [], false, false⟩

/-- C9, counterexample: the validator's checks re-read the rendered
text, so source-derived text can spoof them. On `spoofModule` the
persona TOML's display name contains `"workflow shortcut"`, check 5
therefore treats the persona record as a shortcut, extracts `ghost`
from the verbatim source text embedded in its prompt, finds no such
skill container, and reports an error on the pipeline's own output —
the process exits non-zero. -/
theorem c9_counterexample :
    (runPipeline false [spoofModule]).report.errors =
      ["bmad-demo-spoof.toml: skill ghost not found"] ∧
    exitCode (runPipeline false [spoofModule]).report = 1 := by
  refine ⟨by decide, by decide⟩

/-- C9, amended: structural referential closure holds unconditionally —
on every source tree, every agent record the persisting pipeline
produces has its own identifier as `system_prompt_id`, an accepted
safety tier, a prompt document stored under exactly that identifier,
and, when it is a Phase-4 shortcut, a prompt whose embedded skill slug
resolves to an existing skill container (`storeOk`). The claim's
further assertion — that the validator's own checks report zero errors
on this output — holds only when no source-derived text spoofs the
validator's textual markers (counterexample `c9_counterexample`); it
does hold on marker-free trees, e.g. the concrete two-module tree
below. -/
theorem c9_amended_structural_closure :
    (∀ mods, storeOk (runPipeline false mods).store) ∧
    (runPipeline false [planningModule, demoModule]).report.errors = [] := by
  constructor
  · intro mods
    unfold runPipeline runPipelineFrom runPhases123From
    rw [phase7_store]
    set ps1 := phase1 false mods (initPS emptyStore emptyReport) with hps1
    set ps2 := phase2 false mods ps1 with hps2
    set ps3 := phase3 false mods ps2 with hps3
    set ps4 := phase4 false mods ps3 with hps4
    set ps5 := phase5 false mods ps4 with hps5
    have hP0 : storePersonaOk (initPS emptyStore emptyReport).store := by
      constructor
      · intro p hp; cases hp
      · intro p hp; cases hp
    have hP1 : storePersonaOk ps1.store := phase1_storePOk false mods _ hP0
    have hP2 : storePersonaOk ps2.store := phase2_storePOk false mods _ hP1
    have hP3 : storePersonaOk ps3.store := phase3_storePOk false mods _ hP2
    have hd2 : ∀ m ∈ mods, ∀ w ∈ m.workflowFiles.getD [], wfFilter w = true →
        dirHas ps2.store (wfSkillSlug m.name w) := phase2_reaches ps1 mods
    have hd3 : ∀ m ∈ mods, ∀ w ∈ m.workflowFiles.getD [], wfFilter w = true →
        dirHas ps3.store (wfSkillSlug m.name w) :=
      fun m hm w hw hf => phase3_dirHas false mods ps2 _ (hd2 m hm w hw hf)
    have h4 : storeOk ps4.store := phase4_storeOk ps3 mods hd3 hP3.1
    have h5 : storeOk ps5.store :=
      storeOk_mono (phase5_agents false mods ps4) (phase5_prompts false mods ps4)
        (fun k hk => phase5_dirHas false mods ps4 k hk) h4
    exact storeOk_mono (phase6_store_fields false ps5).1
      (phase6_store_fields false ps5).2.1
      (fun k hk => by
        unfold dirHas
        rw [(phase6_store_fields false ps5).2.2.1]
        exact hk) h5
  · decide

/-- C9, witness: the structural-closure theorem applied to the concrete
shortcut record produced for `planning/workflow-create-spec.md`. -/
theorem c9_witness :
    ("bmad-demo-planning-create-spec",
      workflowAgentRecord "demo" "planning-create-spec"
        "bmad-demo-planning-create-spec" "bmad-demo-planning-create-spec") ∈
      (runPipeline false [planningModule]).store.agents ∧
    ((workflowAgentRecord "demo" "planning-create-spec"
        "bmad-demo-planning-create-spec" "bmad-demo-planning-create-spec").systemPromptId =
      "bmad-demo-planning-create-spec" ∧
    validSafetyB (workflowAgentRecord "demo" "planning-create-spec"
        "bmad-demo-planning-create-spec" "bmad-demo-planning-create-spec").safety = true ∧
    ∃ pd, lookupS "bmad-demo-planning-create-spec"
        (runPipeline false [planningModule]).store.prompts = some pd ∧
      ((workflowAgentRecord "demo" "planning-create-spec"
          "bmad-demo-planning-create-spec" "bmad-demo-planning-create-spec").isShortcut = true →
        ∃ k, pd.skillRef = some k ∧
          dirHas (runPipeline false [planningModule]).store k)) :=
  ⟨by decide,
   c9_amended_structural_closure.1 [planningModule]
     ("bmad-demo-planning-create-spec",
       workflowAgentRecord "demo" "planning-create-spec"
         "bmad-demo-planning-create-spec" "bmad-demo-planning-create-spec")
     (by decide)⟩

/-! ## Two-mode pair equality for phases 1-3 (claim C2)

The builders run before the mode-gated write, so phases 1-3 compute the
same (identifier, rendered-artifact) pairs regardless of mode and of
the store contents. -/

theorem phase1Item_pairs_eq (d1 d2 : Bool) (m : String) (f : String × String)
    (psD psP : PState) (h : psD.pairs = psP.pairs) :
    (phase1Item d1 m psD f).pairs = (phase1Item d2 m psP f).pairs := by
  unfold phase1Item
  cases hx : strEndsWith f.1 ".xml" <;> simp [hx, h]

theorem phase2Item_pairs_eq (d1 d2 : Bool) (m : String) (w : WorkflowFile)
    (psD psP : PState) (h : psD.pairs = psP.pairs) :
    (phase2Item d1 m psD w).pairs = (phase2Item d2 m psP w).pairs := by
  unfold phase2Item
  cases hx : wfFilter w <;> simp [hx, h]

theorem phase3Item_pairs_eq (d1 d2 : Bool) (m : String) (f : String × String)
    (psD psP : PState) (h : psD.pairs = psP.pairs) :
    (phase3Item d1 m psD f).pairs = (phase3Item d2 m psP f).pairs := by
  unfold phase3Item
  cases hx : strEndsWith f.1 ".md" <;> simp [hx, h]

theorem phase1Mod_pairs_eq (d1 d2 : Bool) (m : Module) (psD psP : PState)
    (h : psD.pairs = psP.pairs) :
    (phase1Mod d1 psD m).pairs = (phase1Mod d2 psP m).pairs := by
  unfold phase1Mod
  cases haf : m.agentFiles with
  | none => simpa using h
  | some fs =>
    exact foldl_rel (f := phase1Item d1 m.name) (g := phase1Item d2 m.name)
      (R := fun x y => x.pairs = y.pairs) fs
      (fun s t a _ hst => phase1Item_pairs_eq d1 d2 m.name a s t hst) psD psP h

theorem phase2Mod_pairs_eq (d1 d2 : Bool) (m : Module) (psD psP : PState)
    (h : psD.pairs = psP.pairs) :
    (phase2Mod d1 psD m).pairs = (phase2Mod d2 psP m).pairs := by
  unfold phase2Mod
  cases haf : m.workflowFiles with
  | none => simpa using h
  | some ws =>
    exact foldl_rel (f := phase2Item d1 m.name) (g := phase2Item d2 m.name)
      (R := fun x y => x.pairs = y.pairs) ws
      (fun s t a _ hst => phase2Item_pairs_eq d1 d2 m.name a s t hst) psD psP h

theorem phase3Mod_pairs_eq (d1 d2 : Bool) (m : Module) (psD psP : PState)
    (h : psD.pairs = psP.pairs) :
    (phase3Mod d1 psD m).pairs = (phase3Mod d2 psP m).pairs := by
  unfold phase3Mod
  exact foldl_rel (f := phase3Item d1 m.name) (g := phase3Item d2 m.name)
    (R := fun x y => x.pairs = y.pairs) m.taskFiles
    (fun s t a _ hst => phase3Item_pairs_eq d1 d2 m.name a s t hst) psD psP h

theorem phase1_pairs_eq (d1 d2 : Bool) (mods : List Module) (psD psP : PState)
    (h : psD.pairs = psP.pairs) :
    (phase1 d1 mods psD).pairs = (phase1 d2 mods psP).pairs :=
  foldl_rel (f := phase1Mod d1) (g := phase1Mod d2)
    (R := fun x y => x.pairs = y.pairs) mods
    (fun s t a _ hst => phase1Mod_pairs_eq d1 d2 a s t hst) psD psP h

theorem phase2_pairs_eq (d1 d2 : Bool) (mods : List Module) (psD psP : PState)
    (h : psD.pairs = psP.pairs) :
    (phase2 d1 mods psD).pairs = (phase2 d2 mods psP).pairs :=
  foldl_rel (f := phase2Mod d1) (g := phase2Mod d2)
    (R := fun x y => x.pairs = y.pairs) mods
    (fun s t a _ hst => phase2Mod_pairs_eq d1 d2 a s t hst) psD psP h

theorem phase3_pairs_eq (d1 d2 : Bool) (mods : List Module) (psD psP : PState)
    (h : psD.pairs = psP.pairs) :
    (phase3 d1 mods psD).pairs = (phase3 d2 mods psP).pairs :=
  foldl_rel (f := phase3Mod d1) (g := phase3Mod d2)
    (R := fun x y => x.pairs = y.pairs) mods
    (fun s t a _ hst => phase3Mod_pairs_eq d1 d2 a s t hst) psD psP h

/-! ## Preview mode never touches the store -/

theorem phase1Item_store_dry (m : String) (ps : PState) (f : String × String) :
    (phase1Item true m ps f).store = ps.store := by
  unfold phase1Item
  split <;> rfl

theorem phase2Item_store_dry (m : String) (ps : PState) (w : WorkflowFile) :
    (phase2Item true m ps w).store = ps.store := by
  unfold phase2Item
  split <;> rfl

theorem phase3Item_store_dry (m : String) (ps : PState) (f : String × String) :
    (phase3Item true m ps f).store = ps.store := by
  unfold phase3Item
  split <;> rfl

theorem phase4Item_store_dry (m : String) (ps : PState) (w : WorkflowFile) :
    (phase4Item true m ps w).store = ps.store := by
  unfold phase4Item
  split
  · rfl
  · cases hl : lookupS (wfAgentSlug m w) ps.store.agents with
    | some v => simp only [hl]
    | none => simp [hl]

theorem phase1Mod_store_dry (ps : PState) (m : Module) :
    (phase1Mod true ps m).store = ps.store := by
  unfold phase1Mod
  split
  · rfl
  · exact foldl_inv (f := phase1Item true m.name) (I := fun x => x.store = ps.store)
      (fun s a hs => by
        show (phase1Item true m.name s a).store = ps.store
        rw [phase1Item_store_dry]
        exact hs) _ _ rfl

theorem phase2Mod_store_dry (ps : PState) (m : Module) :
    (phase2Mod true ps m).store = ps.store := by
  unfold phase2Mod
  split
  · rfl
  · exact foldl_inv (f := phase2Item true m.name) (I := fun x => x.store = ps.store)
      (fun s a hs => by
        show (phase2Item true m.name s a).store = ps.store
        rw [phase2Item_store_dry]
        exact hs) _ _ rfl

theorem phase3Mod_store_dry (ps : PState) (m : Module) :
    (phase3Mod true ps m).store = ps.store := by
  unfold phase3Mod
  exact foldl_inv (f := phase3Item true m.name) (I := fun x => x.store = ps.store)
    (fun s a hs => by
      show (phase3Item true m.name s a).store = ps.store
      rw [phase3Item_store_dry]
      exact hs) _ _ rfl

theorem phase1_store_dry (mods : List Module) (ps : PState) :
    (phase1 true mods ps).store = ps.store :=
  foldl_inv (f := phase1Mod true) (I := fun x => x.store = ps.store)
    (fun s a hs => by
      show (phase1Mod true s a).store = ps.store
      rw [phase1Mod_store_dry]
      exact hs) mods ps rfl

theorem phase2_store_dry (mods : List Module) (ps : PState) :
    (phase2 true mods ps).store = ps.store :=
  foldl_inv (f := phase2Mod true) (I := fun x => x.store = ps.store)
    (fun s a hs => by
      show (phase2Mod true s a).store = ps.store
      rw [phase2Mod_store_dry]
      exact hs) mods ps rfl

theorem phase3_store_dry (mods : List Module) (ps : PState) :
    (phase3 true mods ps).store = ps.store :=
  foldl_inv (f := phase3Mod true) (I := fun x => x.store = ps.store)
    (fun s a hs => by
      show (phase3Mod true s a).store = ps.store
      rw [phase3Mod_store_dry]
      exact hs) mods ps rfl

/-! ## Identifier inventories of a source tree -/

/-- The persona agent identifiers Phase 1 derives from a source tree. -/
def personaSlugsOf (mods : List Module) : List String :=
  mods.flatMap fun m =>
    ((m.agentFiles.getD []).filter fun f => strEndsWith f.1 ".xml").map fun f =>
      "bmad-" ++ m.name ++ "-" ++ trimSuf f.1 ".xml"

/-- The shortcut agent identifiers Phase 4 derives from a source tree. -/
def shortcutSlugsOf (mods : List Module) : List String :=
  mods.flatMap fun m =>
    ((m.workflowFiles.getD []).filter wfFilter).map fun w => wfAgentSlug m.name w

theorem phase1Item_keys {S : String → Prop} (dry : Bool) (m : String) (ps : PState)
    (f : String × String)
    (hnew : strEndsWith f.1 ".xml" = true →
      S ("bmad-" ++ m ++ "-" ++ trimSuf f.1 ".xml"))
    (h : ∀ k, (lookupS k ps.store.agents).isSome = true → S k) :
    ∀ k, (lookupS k (phase1Item dry m ps f).store.agents).isSome = true → S k := by
  intro k hk
  unfold phase1Item at hk
  cases hx : strEndsWith f.1 ".xml"
  · rw [hx] at hk
    exact h k hk
  · cases dry
    · simp only [hx, Bool.not_true, Bool.false_eq_true, if_false, lookup_upsert] at hk
      by_cases hkv : k = "bmad-" ++ m ++ "-" ++ trimSuf f.1 ".xml"
      · rw [hkv]
        exact hnew hx
      · rw [if_neg hkv] at hk
        exact h k hk
    · rw [hx] at hk
      exact h k hk

theorem phase1Mod_keys {S : String → Prop} (dry : Bool) (ps : PState) (m : Module)
    (hnew : ∀ f ∈ m.agentFiles.getD [], strEndsWith f.1 ".xml" = true →
      S ("bmad-" ++ m.name ++ "-" ++ trimSuf f.1 ".xml"))
    (h : ∀ k, (lookupS k ps.store.agents).isSome = true → S k) :
    ∀ k, (lookupS k (phase1Mod dry ps m).store.agents).isSome = true → S k := by
  cases haf : m.agentFiles with
  | none =>
    unfold phase1Mod
    simp only [haf]
    exact h
  | some fs =>
    unfold phase1Mod
    simp only [haf]
    exact foldl_inv_mem (f := phase1Item dry m.name)
      (I := fun x => ∀ k, (lookupS k x.store.agents).isSome = true → S k) fs
      (fun s a ha hs => phase1Item_keys dry m.name s a
        (fun hx => hnew a (by rw [haf]; simpa using ha) hx) hs)
      ps h

theorem phase1_keys {S : String → Prop} (dry : Bool) (mods : List Module) (ps : PState)
    (hnew : ∀ m ∈ mods, ∀ f ∈ m.agentFiles.getD [], strEndsWith f.1 ".xml" = true →
      S ("bmad-" ++ m.name ++ "-" ++ trimSuf f.1 ".xml"))
    (h : ∀ k, (lookupS k ps.store.agents).isSome = true → S k) :
    ∀ k, (lookupS k (phase1 dry mods ps).store.agents).isSome = true → S k := by
  unfold phase1
  exact foldl_inv_mem (f := phase1Mod dry)
    (I := fun x => ∀ k, (lookupS k x.store.agents).isSome = true → S k) mods
    (fun s a ha hs => phase1Mod_keys dry s a (fun f hf hx => hnew a ha f hf hx) hs) ps h

theorem phase2Mod_agents (dry : Bool) (ps : PState) (m : Module) :
    (phase2Mod dry ps m).store.agents = ps.store.agents := by
  unfold phase2Mod
  split
  · rfl
  · exact foldl_inv (f := phase2Item dry m.name)
      (I := fun x => x.store.agents = ps.store.agents)
      (fun s a hs => by
        show (phase2Item dry m.name s a).store.agents = ps.store.agents
        rw [phase2Item_agents]
        exact hs) _ _ rfl

theorem phase3Mod_agents (dry : Bool) (ps : PState) (m : Module) :
    (phase3Mod dry ps m).store.agents = ps.store.agents := by
  unfold phase3Mod
  exact foldl_inv (f := phase3Item dry m.name)
    (I := fun x => x.store.agents = ps.store.agents)
    (fun s a hs => by
      show (phase3Item dry m.name s a).store.agents = ps.store.agents
      rw [phase3Item_agents]
      exact hs) _ _ rfl

theorem phase2_agents (dry : Bool) (mods : List Module) (ps : PState) :
    (phase2 dry mods ps).store.agents = ps.store.agents :=
  foldl_inv (f := phase2Mod dry) (I := fun x => x.store.agents = ps.store.agents)
    (fun s a hs => by
      show (phase2Mod dry s a).store.agents = ps.store.agents
      rw [phase2Mod_agents]
      exact hs) mods ps rfl

theorem phase3_agents (dry : Bool) (mods : List Module) (ps : PState) :
    (phase3 dry mods ps).store.agents = ps.store.agents :=
  foldl_inv (f := phase3Mod dry) (I := fun x => x.store.agents = ps.store.agents)
    (fun s a hs => by
      show (phase3Mod dry s a).store.agents = ps.store.agents
      rw [phase3Mod_agents]
      exact hs) mods ps rfl

/-! ## Phase 4 flattened over all (module, workflow file) items -/

def wfItemsOf (mods : List Module) : List (String × WorkflowFile) :=
  mods.flatMap fun m => (m.workflowFiles.getD []).map fun w => (m.name, w)

theorem phase4Mod_eq_foldl (dry : Bool) (ps : PState) (m : Module) :
    phase4Mod dry ps m = ((m.workflowFiles.getD []).map fun w => (m.name, w)).foldl
      (fun s mw => phase4Item dry mw.1 s mw.2) ps := by
  cases hwf : m.workflowFiles with
  | none =>
    unfold phase4Mod
    simp only [hwf]
    rfl
  | some ws =>
    unfold phase4Mod
    simp only [hwf, Option.getD_some]
    rw [List.foldl_map]

theorem phase4_eq_foldl (dry : Bool) (mods : List Module) (ps : PState) :
    phase4 dry mods ps = (wfItemsOf mods).foldl
      (fun s mw => phase4Item dry mw.1 s mw.2) ps := by
  induction mods generalizing ps with
  | nil => rfl
  | cons m t ih =>
    have h1 : phase4 dry (m :: t) ps = phase4 dry t (phase4Mod dry ps m) := rfl
    rw [h1, ih, phase4Mod_eq_foldl]
    show _ = (wfItemsOf (m :: t)).foldl _ ps
    rw [show wfItemsOf (m :: t) =
        ((m.workflowFiles.getD []).map fun w => (m.name, w)) ++ wfItemsOf t by
      simp [wfItemsOf]]
    rw [List.foldl_append]

theorem shortcutSlugs_eq (mods : List Module) :
    ((wfItemsOf mods).filter fun mw => wfFilter mw.2).map
      (fun mw => wfAgentSlug mw.1 mw.2) = shortcutSlugsOf mods := by
  induction mods with
  | nil => rfl
  | cons m t ih =>
    rw [show wfItemsOf (m :: t) =
        ((m.workflowFiles.getD []).map fun w => (m.name, w)) ++ wfItemsOf t by
      simp [wfItemsOf]]
    rw [List.filter_append, List.map_append, ih]
    rw [show shortcutSlugsOf (m :: t) =
        ((m.workflowFiles.getD []).filter wfFilter).map (wfAgentSlug m.name) ++
          shortcutSlugsOf t by
      simp [shortcutSlugsOf]]
    congr 1
    rw [List.filter_map, List.map_map]
    rfl

/-- The two-mode Phase-4 fold: when no item's shortcut identifier is
already present in the persisting store and the identifiers are
pairwise distinct, both modes process every item and compute the same
pairs (preview mode's store stays empty, so its skip check never
fires). -/
theorem phase4_two_mode :
    ∀ (items : List (String × WorkflowFile)) (psD psP : PState),
      psD.pairs = psP.pairs →
      psD.store.agents = [] →
      (∀ mw ∈ items, wfFilter mw.2 = true →
        lookupS (wfAgentSlug mw.1 mw.2) psP.store.agents = none) →
      ((items.filter fun mw => wfFilter mw.2).map
        (fun mw => wfAgentSlug mw.1 mw.2)).Nodup →
      (items.foldl (fun s mw => phase4Item true mw.1 s mw.2) psD).pairs =
        (items.foldl (fun s mw => phase4Item false mw.1 s mw.2) psP).pairs := by
  intro items
  induction items with
  | nil => intro psD psP h _ _ _; exact h
  | cons mw t ih =>
    intro psD psP hpairs hDempty hPnone hnodup
    obtain ⟨mn, w⟩ := mw
    simp only [List.foldl_cons]
    cases hf : wfFilter w with
    | false =>
      have hD : phase4Item true mn psD w = psD := by simp [phase4Item, hf]
      have hP : phase4Item false mn psP w = psP := by simp [phase4Item, hf]
      rw [hD, hP]
      apply ih psD psP hpairs hDempty
      · intro mw' hmw' hf'
        exact hPnone mw' (List.mem_cons_of_mem _ hmw') hf'
      · have hfc : (((mn, w) :: t).filter fun mw => wfFilter mw.2) =
            t.filter fun mw => wfFilter mw.2 := by
          rw [List.filter_cons_of_neg]
          simp [hf]
        rwa [hfc] at hnodup
    | true =>
      have hlD : lookupS (wfAgentSlug mn w) psD.store.agents = none := by
        rw [hDempty]; rfl
      have hlP : lookupS (wfAgentSlug mn w) psP.store.agents = none :=
        hPnone (mn, w) (List.mem_cons_self _ _) hf
      have hfc : (((mn, w) :: t).filter fun mw => wfFilter mw.2) =
          (mn, w) :: (t.filter fun mw => wfFilter mw.2) := by
        rw [List.filter_cons_of_pos]
        exact hf
      rw [hfc, List.map_cons] at hnodup
      have hnd := List.nodup_cons.mp hnodup
      have hDpairs : (phase4Item true mn psD w).pairs = psD.pairs ++
          [(wfAgentSlug mn w, Artifact.agent
              (workflowAgentRecord mn (wfShortName mn w) (wfAgentSlug mn w) (wfSkillSlug mn w))),
           (wfAgentSlug mn w, Artifact.prompt
              (PromptDoc.shortcut (toTitle (wfShortName mn w)) (wfSkillSlug mn w)))] := by
        simp [phase4Item, hf, hlD]
      have hPpairs : (phase4Item false mn psP w).pairs = psP.pairs ++
          [(wfAgentSlug mn w, Artifact.agent
              (workflowAgentRecord mn (wfShortName mn w) (wfAgentSlug mn w) (wfSkillSlug mn w))),
           (wfAgentSlug mn w, Artifact.prompt
              (PromptDoc.shortcut (toTitle (wfShortName mn w)) (wfSkillSlug mn w)))] := by
        simp [phase4Item, hf, hlP]
      have hDstore : (phase4Item true mn psD w).store = psD.store :=
        phase4Item_store_dry mn psD w
      have hPagents : (phase4Item false mn psP w).store.agents =
          upsert (wfAgentSlug mn w)
            (workflowAgentRecord mn (wfShortName mn w) (wfAgentSlug mn w) (wfSkillSlug mn w))
            psP.store.agents := by
        simp [phase4Item, hf, hlP]
      apply ih
      · rw [hDpairs, hPpairs, hpairs]
      · rw [hDstore]
        exact hDempty
      · intro mw' hmw' hf'
        rw [hPagents, lookup_upsert]
        by_cases heq : wfAgentSlug mw'.1 mw'.2 = wfAgentSlug mn w
        · exfalso
          apply hnd.1
          rw [← heq]
          exact List.mem_map.mpr ⟨mw', List.mem_filter.mpr ⟨hmw', hf'⟩, rfl⟩
        · rw [if_neg heq]
          exact hPnone mw' (List.mem_cons_of_mem _ hmw') hf'
      · exact hnd.2

/-! ## Claim C2, amended theorem -/

/-- C2, amended: phases 1-3 compute identical (identifier,
rendered-artifact) pairs in preview and persisting mode on any tree;
the full pipeline's pairs coincide provided no Phase-4 shortcut
identifier collides with a persona identifier or another shortcut
identifier. (When a collision exists the persisting run skips the
shortcut whose record already sits in the store, which preview mode
never populates — the counterexample; Phase 6's index document and
Phase 7 validation are likewise skipped outright in preview mode.) -/
theorem c2_amended_preview_equivalence :
    (∀ mods, (runPhases123From true emptyStore emptyReport mods).pairs =
      (runPhases123From false emptyStore emptyReport mods).pairs) ∧
    (∀ mods, (∀ a ∈ shortcutSlugsOf mods, a ∉ personaSlugsOf mods) →
      (shortcutSlugsOf mods).Nodup →
      (runPipeline true mods).pairs = (runPipeline false mods).pairs) := by
  have h123 : ∀ mods, (runPhases123From true emptyStore emptyReport mods).pairs =
      (runPhases123From false emptyStore emptyReport mods).pairs := by
    intro mods
    unfold runPhases123From
    exact phase3_pairs_eq true false mods _ _
      (phase2_pairs_eq true false mods _ _
        (phase1_pairs_eq true false mods _ _ rfl))
  refine ⟨h123, ?_⟩
  intro mods hcol hnod
  unfold runPipeline runPipelineFrom
  rw [phase7_pairs, phase7_pairs, phase6_pairs, phase6_pairs, phase5_pairs,
    phase5_pairs, phase4_eq_foldl, phase4_eq_foldl]
  apply phase4_two_mode
  · exact h123 mods
  · have hst : (runPhases123From true emptyStore emptyReport mods).store = emptyStore := by
      unfold runPhases123From
      rw [phase3_store_dry, phase2_store_dry, phase1_store_dry]
      rfl
    rw [hst]
    rfl
  · intro mw hmw hf
    have hkeys : ∀ k,
        (lookupS k (runPhases123From false emptyStore emptyReport mods).store.agents).isSome = true →
        k ∈ personaSlugsOf mods := by
      intro k hk
      unfold runPhases123From at hk
      rw [phase3_agents, phase2_agents] at hk
      refine phase1_keys (S := fun k => k ∈ personaSlugsOf mods) false mods _ ?_ ?_ k hk
      · intro m hm f hfm hx
        exact List.mem_flatMap.mpr
          ⟨m, hm, List.mem_map.mpr ⟨f, List.mem_filter.mpr ⟨hfm, hx⟩, rfl⟩⟩
      · intro k' hk'
        exact absurd hk' (by simp [initPS, emptyStore, lookupS])
    have hslug : wfAgentSlug mw.1 mw.2 ∈ shortcutSlugsOf mods := by
      obtain ⟨m, hm, hmem⟩ := List.mem_flatMap.mp hmw
      obtain ⟨w', hw', hmw'⟩ := List.mem_map.mp hmem
      rw [← hmw'] at hf ⊢
      exact List.mem_flatMap.mpr
        ⟨m, hm, List.mem_map.mpr ⟨w', List.mem_filter.mpr ⟨hw', hf⟩, rfl⟩⟩
    cases hlp : lookupS (wfAgentSlug mw.1 mw.2)
        (runPhases123From false emptyStore emptyReport mods).store.agents with
    | none => rfl
    | some v =>
      exact absurd (hkeys _ (by rw [hlp]; rfl)) (hcol _ hslug)
  · rw [shortcutSlugs_eq]
    exact hnod

/-- C2, witness: a tree without identifier collisions, on which the
amended theorem yields full pair equality of the two modes. -/
theorem c2_witness :
    (∀ a ∈ shortcutSlugsOf [noCollideModule], a ∉ personaSlugsOf [noCollideModule]) ∧
    (runPipeline true [noCollideModule]).pairs =
      (runPipeline false [noCollideModule]).pairs :=
  ⟨by decide, c2_amended_preview_equivalence.2 [noCollideModule] (by decide) (by decide)⟩

end Bmad2Vibe
